import Mathlib

/-!
Shallow embedding of `src/reader/parser.rs` (a pull-based streaming XML
parser) and verification of its specification claims.

The state machine, pull driver, micro-parsers and event emission are
translated directly from `src/reader/parser.rs`.  The crate modules the
parser imports (`common`, `namespace`, `reader::lexer`, `reader::events`,
`reader::config`) are not part of the staged sources, so their small data
types and helpers are modelled from the spec where needed; each such
definition carries a doc comment saying so.

Conventions of the embedding:
* Rust methods mutating `self` and returning `Option<XmlEvent>` become
  functions `PullParser → ... → PullParser × Option XmlEvent`.
* The lexer is represented by the list of results it would produce:
  `List (Except String Token)`; exhausting the list is end-of-stream.
* `Vec` push/pop at the back becomes `List` cons/tail at the front
  (the head of `est` is the top of the element stack).
* Error events keep the message text; the lexer source position attached
  by `Error::new(&self.lexer, msg)` is outside the parser core and is
  dropped.
-/

set_option maxRecDepth 4000

/-- Modelled from the spec: `common::XmlVersion` (§3 StartDocument{version}),
versions `1.0` and `1.1`. -/
inductive XmlVersion
  | Version10
  | Version11
deriving DecidableEq

/-- Modelled from the spec: `common::Name` (§3): a qualified name
{prefix?, local_name, namespace_uri?}.  The Rust field `prefix` is called
`pfx` here and `namespace` is called `ns` (both are unusable identifiers
in Lean). -/
structure Name where
  pfx : Option String
  local_name : String
  ns : Option String
deriving DecidableEq

/-- Modelled from the spec: display form of a `Name` as used in error
messages; scenario 6 of §8 shows plain local names, so this prints
`prefix:local` or `local`. -/
def Name.show (n : Name) : String :=
  match n.pfx with
  | some p => p ++ ":" ++ n.local_name
  | none => n.local_name

/-- Modelled from the spec: `common::Attribute` (§3): a pair {Name, value}. -/
structure Attribute where
  name : Name
  value : String
deriving DecidableEq

/-- Modelled from the spec: `common::is_whitespace_char`, the XML
whitespace characters (space, tab, newline, carriage return). -/
def is_whitespace_char (c : Char) : Bool :=
  c == ' ' || c == Char.ofNat 9 || c == Char.ofNat 10 || c == Char.ofNat 13

/-- Modelled from the spec: `common::is_name_start_char`, the XML
`NameStartChar` production (§4.3 references it). -/
def is_name_start_char (c : Char) : Bool :=
  let n := c.toNat
  c == ':' || (65 ≤ n && n ≤ 90) || c == '_' || (97 ≤ n && n ≤ 122) ||
  (0xC0 ≤ n && n ≤ 0xD6) || (0xD8 ≤ n && n ≤ 0xF6) || (0xF8 ≤ n && n ≤ 0x2FF) ||
  (0x370 ≤ n && n ≤ 0x37D) || (0x37F ≤ n && n ≤ 0x1FFF) ||
  (0x200C ≤ n && n ≤ 0x200D) || (0x2070 ≤ n && n ≤ 0x218F) ||
  (0x2C00 ≤ n && n ≤ 0x2FEF) || (0x3001 ≤ n && n ≤ 0xD7FF) ||
  (0xF900 ≤ n && n ≤ 0xFDCF) || (0xFDF0 ≤ n && n ≤ 0xFFFD) ||
  (0x10000 ≤ n && n ≤ 0xEFFFF)

/-- Modelled from the spec: `common::is_name_char`, the XML `NameChar`
production (§4.3 references it). -/
def is_name_char (c : Char) : Bool :=
  let n := c.toNat
  is_name_start_char c || c == '-' || c == '.' || (48 ≤ n && n ≤ 57) ||
  n == 0xB7 || (0x300 ≤ n && n ≤ 0x36F) || (0x203F ≤ n && n ≤ 0x2040)

/-- Split a character list into its segments between colons (the segments
of `String::split(':')`): `splitColonSegs "a:b".data = [['a'], ['b']]`. -/
def splitColonSegs : List Char → List (List Char)
  | [] => [[]]
  | c :: rest =>
      match splitColonSegs rest with
      | [] => []
      | h :: t => if c = ':' then [] :: h :: t else (c :: h) :: t

/-- Modelled from the spec (§4.3): `common::parse_name` splits the
accumulated buffer on `:` into (prefix?, local); an empty local part (or
empty prefix, or more than one colon) fails. -/
def parse_name (s : String) : Option Name :=
  match splitColonSegs s.data with
  | [l] => if l.isEmpty then none else some ⟨none, ⟨l⟩, none⟩
  | [p, l] => if p.isEmpty || l.isEmpty then none else some ⟨some ⟨p⟩, ⟨l⟩, none⟩
  | _ => none

/-- Modelled from the spec: the token alphabet of `reader::lexer` (§6). -/
inductive Token
  | ProcessingInstructionStart
  | ProcessingInstructionEnd
  | DoctypeStart
  | OpeningTagStart
  | ClosingTagStart
  | TagEnd
  | EmptyTagEnd
  | CommentStart
  | CommentEnd
  | CDataStart
  | CDataEnd
  | ReferenceStart
  | ReferenceEnd
  | DoubleQuote
  | SingleQuote
  | EqualsSign
  | Chunk (s : String)
  | Character (c : Char)
  | Whitespace (c : Char)
deriving DecidableEq

/-- Modelled from the spec: the textual form of a token, used both when a
token is appended literally to the character buffer (`t.to_string()`) and
in error messages. -/
def Token.to_str : Token → String
  | .ProcessingInstructionStart => "<?"
  | .ProcessingInstructionEnd => "?>"
  | .DoctypeStart => "<!DOCTYPE"
  | .OpeningTagStart => "<"
  | .ClosingTagStart => "</"
  | .TagEnd => ">"
  | .EmptyTagEnd => "/>"
  | .CommentStart => "<!--"
  | .CommentEnd => "-->"
  | .CDataStart => "<![CDATA["
  | .CDataEnd => "]]>"
  | .ReferenceStart => "&"
  | .ReferenceEnd => ";"
  | .DoubleQuote => String.singleton (Char.ofNat 34)
  | .SingleQuote => String.singleton (Char.ofNat 39)
  | .EqualsSign => "="
  | .Chunk s => s
  | .Character c => String.singleton c
  | .Whitespace c => String.singleton c

/-- Modelled from the spec (§4.2): `Token::contains_char_data`, true for
the text-carrying tokens `Chunk`, `Character` and `Whitespace`. -/
def Token.contains_char_data : Token → Bool
  | .Chunk _ => true
  | .Character _ => true
  | .Whitespace _ => true
  | _ => false

/-- Modelled from the spec (§4.5): `namespace::NS_XML_URI`, the standard
`xml` namespace URI. -/
def NS_XML_URI : String := "http://www.w3.org/XML/1998/namespace"

/-- Modelled from the spec: `namespace::NS_XMLNS_URI`, the standard
`xmlns` namespace URI. -/
def NS_XMLNS_URI : String := "http://www.w3.org/2000/xmlns/"

/-- Modelled from the spec (§3): `namespace::NamespaceStack`, an ordered
sequence of scopes mapping optional prefix (none = default namespace) to a
URI.  A scope is an association list whose earlier entries shadow later
ones; the head scope is the top of the stack. -/
structure NamespaceStack where
  scopes : List (List (Option String × String))
deriving DecidableEq

/-- Modelled from the spec: `NamespaceStack::default()`, a stack whose
bottom scope binds the reserved `xml` and `xmlns` prefixes and binds the
default (absent) prefix to the empty URI ("undeclare the default
namespace", §3); §8 scenario 1 requires an unprefixed root element to
resolve without error against this stack. -/
def NamespaceStack.default : NamespaceStack :=
  ⟨[[(none, ""), (some "xml", NS_XML_URI), (some "xmlns", NS_XMLNS_URI)]]⟩

/-- `NamespaceStack::push_empty`: a new empty scope on top. -/
def NamespaceStack.push_empty (n : NamespaceStack) : NamespaceStack :=
  ⟨[] :: n.scopes⟩

/-- `NamespaceStack::pop`: drop the top scope. -/
def NamespaceStack.pop (n : NamespaceStack) : NamespaceStack :=
  ⟨n.scopes.tail⟩

/-- `NamespaceStack::put`: bind `p → uri` in the top scope, shadowing any
earlier binding of `p` there. -/
def NamespaceStack.put (n : NamespaceStack) (p : Option String) (uri : String) :
    NamespaceStack :=
  match n.scopes with
  | [] => ⟨[[(p, uri)]]⟩
  | s :: rest => ⟨((p, uri) :: s) :: rest⟩

/-- `NamespaceStack::get`: look `p` up from the top scope down. -/
def NamespaceStack.get (n : NamespaceStack) (p : Option String) : Option String :=
  n.scopes.findSome? (fun sc => (sc.find? (fun e => e.1 == p)).map (·.2))

/-- Modelled from the spec (§4.6): `NamespaceStack::squash`, the flattened
scope snapshot; inner scopes come first and shadow outer ones on lookup. -/
def NamespaceStack.squash (n : NamespaceStack) : List (Option String × String) :=
  n.scopes.flatten

/-- Modelled from the spec: `reader::events::XmlEvent` (§3).  The source
location carried by `Error` comes from the lexer and is dropped; only the
message text is kept. -/
inductive XmlEvent
  | StartDocument (version : XmlVersion) (encoding : String) (standalone : Option Bool)
  | EndDocument
  | ProcessingInstruction (name : String) (data : Option String)
  | Comment (s : String)
  | CData (s : String)
  | Characters (s : String)
  | Whitespace (s : String)
  | StartElement (name : Name) (attributes : List Attribute)
      (ns : List (Option String × String))
  | EndElement (name : Name)
  | Error (msg : String)
deriving DecidableEq

/-- Modelled from the spec: `reader::config::ParserConfig` (§6), the five
boolean options consumed by the core. -/
structure ParserConfig where
  trim_whitespace : Bool
  whitespace_to_characters : Bool
  cdata_to_characters : Bool
  ignore_comments : Bool
  coalesce_characters : Bool
deriving DecidableEq

inductive OpeningTagSubstate
  | InsideName
  | InsideTag
  | InsideAttributeName
  | AfterAttributeName
  | InsideAttributeValue
deriving DecidableEq

inductive ClosingTagSubstate
  | CTInsideName
  | CTAfterName
deriving DecidableEq

inductive ProcessingInstructionSubstate
  | PIInsideName
  | PIInsideData
deriving DecidableEq

inductive DeclarationSubstate
  | BeforeVersion
  | InsideVersion
  | AfterVersion
  | InsideVersionValue
  | AfterVersionValue
  | InsideEncoding
  | AfterEncoding
  | InsideEncodingValue
  | BeforeStandaloneDecl
  | InsideStandaloneDecl
  | AfterStandaloneDecl
  | InsideStandaloneDeclValue
  | AfterStandaloneDeclValue
deriving DecidableEq

inductive State
  | OutsideTag
  | InsideOpeningTag (s : OpeningTagSubstate)
  | InsideClosingTag (s : ClosingTagSubstate)
  | InsideProcessingInstruction (s : ProcessingInstructionSubstate)
  | InsideComment
  | InsideCData
  | InsideDeclaration (s : DeclarationSubstate)
  | InsideDoctype
  | InsideReference (ret : State)
deriving DecidableEq

inductive QualifiedNameTarget
  | AttributeNameTarget
  | OpeningTagNameTarget
  | ClosingTagNameTarget
deriving DecidableEq

inductive QuoteToken
  | SingleQuoteToken
  | DoubleQuoteToken
deriving DecidableEq

/-- `QuoteToken::from_token`; the `panic!` arm of the source is modelled by
an arbitrary result (the function is only applied to quote tokens). -/
def QuoteToken.from_token : Token → QuoteToken
  | .SingleQuote => .SingleQuoteToken
  | _ => .DoubleQuoteToken

def QuoteToken.as_token : QuoteToken → Token
  | .SingleQuoteToken => .SingleQuote
  | .DoubleQuoteToken => .DoubleQuote

structure AttributeData where
  name : Name
  value : String
deriving DecidableEq

def AttributeData.into_attribute (a : AttributeData) : Attribute :=
  ⟨a.name, a.value⟩

structure MarkupData where
  name : String
  ref_data : String
  version : Option XmlVersion
  encoding : Option String
  standalone : Option Bool
  element_name : Option Name
  quote : Option QuoteToken
  attr_name : Option Name
  attributes : List AttributeData
deriving DecidableEq

structure PullParser where
  config : ParserConfig
  st : State
  buf : String
  nst : NamespaceStack
  data : MarkupData
  finish_event : Option XmlEvent
  next_event : Option XmlEvent
  est : List Name
  encountered_element : Bool
  parsed_declaration : Bool
  inside_whitespace : Bool
  read_prefix_separator : Bool
  pop_namespace : Bool
deriving DecidableEq

/-- `PullParser::new`. -/
def PullParser.new (config : ParserConfig) : PullParser where
  config := config
  st := .OutsideTag
  buf := ""
  nst := NamespaceStack.default
  data := ⟨"", "", none, none, none, none, none, none, []⟩
  finish_event := none
  next_event := none
  est := []
  encountered_element := false
  parsed_declaration := false
  inside_whitespace := true
  read_prefix_separator := false
  pop_namespace := false

def PullParser.depth (p : PullParser) : Nat := p.est.length

def PullParser.buf_has_data (p : PullParser) : Bool := p.buf.length > 0

/-- `self_error!`: wrap a message as an Error event (the lexer position is
dropped, see the module comment). -/
def PullParser.selfError (_p : PullParser) (msg : String) : XmlEvent :=
  .Error msg

/-- `str::trim_chars(is_whitespace_char)`: strip leading and trailing XML
whitespace. -/
def trim_whitespace_chars (s : String) : String :=
  ⟨((s.data.dropWhile (fun c => is_whitespace_char c)).reverse.dropWhile
      (fun c => is_whitespace_char c)).reverse⟩

/-- `PullParser::read_qualified_name` (lines 375-414): the qualified-name
micro-parser; `on_name` is the continuation invoked when the name
terminates. -/
def PullParser.read_qualified_name (p : PullParser) (t : Token)
    (target : QualifiedNameTarget)
    (on_name : PullParser → Token → Name → PullParser × Option XmlEvent) :
    PullParser × Option XmlEvent :=
  let p := if p.buf.length ≤ 1 then { p with read_prefix_separator := false } else p
  let invoke_callback := fun (q : PullParser) (tok : Token) =>
    let nm := q.buf
    let q := { q with buf := "" }
    match parse_name nm with
    | some name => on_name q tok name
    | none => (q, some (q.selfError ("Qualified name is invalid: " ++ nm)))
  match t with
  | .Character c =>
      if c == ':' then
        if p.buf_has_data && !p.read_prefix_separator then
          ({ p with buf := p.buf.push ':', read_prefix_separator := true }, none)
        else
          (p, some (p.selfError ("Unexpected token inside qualified name: " ++ t.to_str)))
      else if (!p.buf_has_data && is_name_start_char c) ||
              (p.buf_has_data && is_name_char c) then
        ({ p with buf := p.buf.push c }, none)
      else (p, some (p.selfError ("Unexpected token inside qualified name: " ++ t.to_str)))
  | .EqualsSign =>
      if target == .AttributeNameTarget then invoke_callback p t
      else (p, some (p.selfError ("Unexpected token inside qualified name: " ++ t.to_str)))
  | .EmptyTagEnd =>
      if target == .OpeningTagNameTarget then invoke_callback p t
      else (p, some (p.selfError ("Unexpected token inside qualified name: " ++ t.to_str)))
  | .TagEnd =>
      if target == .OpeningTagNameTarget || target == .ClosingTagNameTarget then
        invoke_callback p t
      else (p, some (p.selfError ("Unexpected token inside qualified name: " ++ t.to_str)))
  | .Whitespace _ => invoke_callback p t
  | _ => (p, some (p.selfError ("Unexpected token inside qualified name: " ++ t.to_str)))

/-- `PullParser::read_attribute_value` (lines 421-449): the attribute-value
micro-parser; `on_value` is the continuation invoked at the closing quote. -/
def PullParser.read_attribute_value (p : PullParser) (t : Token)
    (on_value : PullParser → String → PullParser × Option XmlEvent) :
    PullParser × Option XmlEvent :=
  match t with
  | .Whitespace _ =>
      if p.data.quote == none then (p, none)
      else ({ p with buf := p.buf ++ t.to_str }, none)
  | .DoubleQuote | .SingleQuote =>
      match p.data.quote with
      | none => ({ p with data.quote := some (QuoteToken.from_token t) }, none)
      | some q =>
          if q.as_token == t then
            let value := p.buf
            on_value { p with buf := "", data.quote := none } value
          else ({ p with buf := p.buf ++ t.to_str }, none)
  | .ReferenceStart => ({ p with st := .InsideReference p.st }, none)
  | .OpeningTagStart =>
      (p, some (p.selfError "Unexpected token inside attribute value: <"))
  | _ => ({ p with buf := p.buf ++ t.to_str }, none)

/-- The character-buffer flush of `outside_tag` on a markup transition
(lines 485-500): returns the flushed event (if any) and the parser with
the buffer drained and `inside_whitespace` reset to true. -/
def PullParser.flushEvent (p : PullParser) : Option XmlEvent × PullParser :=
  let r :=
    if p.buf_has_data then
      let buf := p.buf
      let ev :=
        if p.inside_whitespace && p.config.trim_whitespace then none
        else if p.inside_whitespace && !p.config.whitespace_to_characters then
          some (XmlEvent.Whitespace buf)
        else if p.config.trim_whitespace then
          some (XmlEvent.Characters (trim_whitespace_chars buf))
        else some (XmlEvent.Characters buf)
      (ev, { p with buf := "" })
    else ((none : Option XmlEvent), p)
  (r.1, { r.2 with inside_whitespace := true })

/-- The markup-transition tail of `outside_tag`'s default arm
(lines 501-545): flush the buffer, then transition on the token. -/
def PullParser.flushAndGo (p : PullParser) (t : Token) : PullParser × Option XmlEvent :=
  let fr := p.flushEvent
  let next_ev := fr.1
  let p := fr.2
  match t with
  | .ProcessingInstructionStart =>
      ({ p with st := .InsideProcessingInstruction .PIInsideName }, next_ev)
  | .DoctypeStart =>
      if !p.encountered_element then ({ p with st := .InsideDoctype }, next_ev)
      else (p, some (p.selfError ("Unexpected token: " ++ t.to_str)))
  | .OpeningTagStart =>
      -- If no declaration was parsed, the synthesized StartDocument replaces
      -- any flushed event (the source assigns over `next_event`).
      let r :=
        if !p.parsed_declaration then
          ({ p with parsed_declaration := true },
           some (XmlEvent.StartDocument .Version10 "UTF-8" none))
        else (p, next_ev)
      let p := r.1
      ({ p with encountered_element := true, nst := p.nst.push_empty,
                st := .InsideOpeningTag .InsideName }, r.2)
  | .ClosingTagStart =>
      if p.depth > 0 then ({ p with st := .InsideClosingTag .CTInsideName }, next_ev)
      else (p, some (p.selfError ("Unexpected token: " ++ t.to_str)))
  | .CommentStart => ({ p with st := .InsideComment }, next_ev)
  | .CDataStart => ({ p with st := .InsideCData }, next_ev)
  | _ => (p, some (p.selfError ("Unexpected token: " ++ t.to_str)))

/-- `PullParser::outside_tag` (lines 451-548). -/
def PullParser.outside_tag (p : PullParser) (t : Token) : PullParser × Option XmlEvent :=
  match t with
  | .ReferenceStart => ({ p with st := .InsideReference .OutsideTag }, none)
  | .Whitespace c =>
      if p.depth == 0 then (p, none)
      else ({ p with buf := p.buf.push c }, none)
  | _ =>
      if t.contains_char_data && p.depth == 0 then
        (p, some (p.selfError ("Unexpected characters outside the root element: " ++ t.to_str)))
      else if t.contains_char_data then
        ({ p with inside_whitespace := false, buf := p.buf ++ t.to_str }, none)
      else
        match t with
        | .ReferenceEnd =>
            -- semicolon in text outside an entity
            ({ p with inside_whitespace := false, buf := p.buf ++ ";" }, none)
        | .CommentStart =>
            if p.config.coalesce_characters && p.config.ignore_comments then
              ({ p with st := .InsideComment }, none)
            else p.flushAndGo t
        | .CDataStart =>
            if p.config.coalesce_characters && p.config.cdata_to_characters then
              ({ p with st := .InsideCData }, none)
            else p.flushAndGo t
        | _ => p.flushAndGo t

/-- `PullParser::inside_doctype` (lines 550-559). -/
def PullParser.inside_doctype (p : PullParser) (t : Token) : PullParser × Option XmlEvent :=
  match t with
  | .TagEnd => ({ p with st := .OutsideTag }, none)
  | _ => (p, none)

/-- The eight capitalizations of `xml` matched by
`inside_processing_instruction` (lines 579 and 606). -/
def xmlCaseVariants : List String :=
  ["xml", "xmL", "xMl", "xML", "Xml", "XmL", "XMl", "XML"]

/-- `PullParser::inside_processing_instruction` (lines 561-644). -/
def PullParser.inside_processing_instruction (p : PullParser) (t : Token)
    (s : ProcessingInstructionSubstate) : PullParser × Option XmlEvent :=
  match s with
  | .PIInsideName =>
      match t with
      | .Character c =>
          if (!p.buf_has_data && is_name_start_char c) ||
             (p.buf_has_data && is_name_char c) then
            ({ p with buf := p.buf.push c }, none)
          else (p, some (p.selfError ("Unexpected token: <?" ++ p.buf ++ t.to_str)))
      | .ProcessingInstructionEnd =>
          let name := p.buf
          let p := { p with buf := "" }
          if name == "" then
            (p, some (p.selfError "Encountered processing instruction without name"))
          else if xmlCaseVariants.contains name then
            (p, some (p.selfError ("Invalid processing instruction: <?" ++ name)))
          else
            ({ p with st := .OutsideTag },
             some (.ProcessingInstruction name none))
      | .Whitespace _ =>
          let name := p.buf
          let p := { p with buf := "" }
          if name == "xml" && !p.encountered_element && !p.parsed_declaration then
            ({ p with st := .InsideDeclaration .BeforeVersion }, none)
          else if xmlCaseVariants.contains name &&
                  (p.encountered_element || p.parsed_declaration) then
            (p, some (p.selfError ("Invalid processing instruction: <?" ++ name)))
          else
            ({ p with data.name := name,
                      st := .InsideProcessingInstruction .PIInsideData }, none)
      | _ => (p, some (p.selfError ("Unexpected token: <?" ++ p.buf ++ t.to_str)))
  | .PIInsideData =>
      match t with
      | .ProcessingInstructionEnd =>
          let name := p.data.name
          let data := p.buf
          ({ p with data.name := "", buf := "", st := .OutsideTag },
           some (.ProcessingInstruction name (some data)))
      | _ => ({ p with buf := p.buf ++ t.to_str }, none)

/-- `emit_start_document` (lines 653-664, local to `inside_declaration`). -/
def PullParser.emit_start_document (p : PullParser) : PullParser × Option XmlEvent :=
  let p := { p with parsed_declaration := true }
  let version := p.data.version
  let encoding := p.data.encoding
  let standalone := p.data.standalone
  let p := { p with data.version := none, data.encoding := none,
                    data.standalone := none, st := .OutsideTag }
  (p, some (.StartDocument (version.getD .Version10) (encoding.getD "UTF-8") standalone))

/-- `PullParser::inside_declaration` (lines 647-774). -/
def PullParser.inside_declaration (p : PullParser) (t : Token) (s : DeclarationSubstate) :
    PullParser × Option XmlEvent :=
  match s with
  | .BeforeVersion =>
      match t with
      | .Whitespace _ => (p, none)
      | .Character 'v' => ({ p with st := .InsideDeclaration .InsideVersion }, none)
      | _ => (p, some (p.selfError ("Unexpected token inside XML declaration: " ++ t.to_str)))
  | .InsideVersion =>
      p.read_qualified_name t .AttributeNameTarget (fun this token name =>
        if name.local_name == "ersion" && name.ns == none then
          let sub : DeclarationSubstate :=
            if token == .EqualsSign then .InsideVersionValue else .AfterVersion
          ({ this with st := .InsideDeclaration sub }, none)
        else
          (this, some (this.selfError
            ("Unexpected token inside XML declaration: " ++ name.show))))
  | .AfterVersion =>
      match t with
      | .Whitespace _ => (p, none)
      | .EqualsSign => ({ p with st := .InsideDeclaration .InsideVersionValue }, none)
      | _ => (p, some (p.selfError ("Unexpected token inside XML declaration: " ++ t.to_str)))
  | .InsideVersionValue =>
      p.read_attribute_value t (fun this value =>
        let v : Option XmlVersion :=
          if value == "1.0" then some .Version10
          else if value == "1.1" then some .Version11
          else none
        let this := { this with data.version := v }
        if v.isSome then ({ this with st := .InsideDeclaration .AfterVersionValue }, none)
        else (this, some (this.selfError ("Unexpected XML version value: " ++ value))))
  | .AfterVersionValue =>
      match t with
      | .Whitespace _ => (p, none)
      | .Character 'e' => ({ p with st := .InsideDeclaration .InsideEncoding }, none)
      | .Character 's' => ({ p with st := .InsideDeclaration .InsideStandaloneDecl }, none)
      | .ProcessingInstructionEnd => p.emit_start_document
      | _ => (p, some (p.selfError ("Unexpected token inside XML declaration: " ++ t.to_str)))
  | .InsideEncoding =>
      p.read_qualified_name t .AttributeNameTarget (fun this token name =>
        if name.local_name == "ncoding" && name.ns == none then
          let sub : DeclarationSubstate :=
            if token == .EqualsSign then .InsideEncodingValue else .AfterEncoding
          ({ this with st := .InsideDeclaration sub }, none)
        else
          (this, some (this.selfError
            ("Unexpected token inside XML declaration: " ++ name.show))))
  | .AfterEncoding =>
      match t with
      | .Whitespace _ => (p, none)
      | .EqualsSign => ({ p with st := .InsideDeclaration .InsideEncodingValue }, none)
      | _ => (p, some (p.selfError ("Unexpected token inside XML declaration: " ++ t.to_str)))
  | .InsideEncodingValue =>
      p.read_attribute_value t (fun this value =>
        ({ this with data.encoding := some value,
                     st := .InsideDeclaration .BeforeStandaloneDecl }, none))
  | .BeforeStandaloneDecl =>
      match t with
      | .Whitespace _ => (p, none)
      | .Character 's' => ({ p with st := .InsideDeclaration .InsideStandaloneDecl }, none)
      | .ProcessingInstructionEnd => p.emit_start_document
      | _ => (p, some (p.selfError ("Unexpected token inside XML declaration: " ++ t.to_str)))
  | .InsideStandaloneDecl =>
      p.read_qualified_name t .AttributeNameTarget (fun this token name =>
        if name.local_name == "tandalone" && name.ns == none then
          let sub : DeclarationSubstate :=
            if token == .EqualsSign then .InsideStandaloneDeclValue else .AfterStandaloneDecl
          ({ this with st := .InsideDeclaration sub }, none)
        else
          (this, some (this.selfError
            ("Unexpected token inside XML declaration: " ++ name.show))))
  | .AfterStandaloneDecl =>
      match t with
      | .Whitespace _ => (p, none)
      | .EqualsSign => ({ p with st := .InsideDeclaration .InsideStandaloneDeclValue }, none)
      | _ => (p, some (p.selfError ("Unexpected token inside XML declaration: " ++ t.to_str)))
  | .InsideStandaloneDeclValue =>
      p.read_attribute_value t (fun this value =>
        let standalone : Option Bool :=
          if value == "yes" then some true
          else if value == "no" then some false
          else none
        if standalone.isSome then
          ({ this with data.standalone := standalone,
                       st := .InsideDeclaration .AfterStandaloneDeclValue }, none)
        else
          (this, some (this.selfError ("Invalid standalone declaration value: " ++ value))))
  | .AfterStandaloneDeclValue =>
      match t with
      | .Whitespace _ => (p, none)
      | .ProcessingInstructionEnd => p.emit_start_document
      | _ => (p, some (p.selfError ("Unexpected token inside XML declaration: " ++ t.to_str)))

/-- The prefix resolution shared by `emit_start_element` and
`emit_end_element` (lines 782-786 and 908-912): `Some("")` means the
default namespace is undeclared, so the resolved namespace is absent;
an unbound prefix gives `none`. -/
def resolve_element_name (nst : NamespaceStack) (n : Name) : Option Name :=
  match nst.get n.pfx with
  | some uri => some { n with ns := if uri == "" then none else some uri }
  | none => none

/-- The attribute-prefix fixing loop of `emit_start_element`
(lines 789-795): resolves each accumulated attribute in order, failing
with the first attribute name whose prefix is unbound. -/
def resolve_attributes (nst : NamespaceStack) :
    List AttributeData → Except Name (List AttributeData)
  | [] => .ok []
  | a :: rest =>
      match resolve_element_name nst a.name with
      | none => .error a.name
      | some n' =>
          match resolve_attributes nst rest with
          | .error e => .error e
          | .ok rs => .ok ({ a with name := n' } :: rs)

/-- `PullParser::emit_start_element` (lines 777-811).  The
`take_element_name().unwrap()` is modelled with a default name; every
call site has stored `element_name` just before. -/
def PullParser.emit_start_element (p : PullParser) (emit_end_elem : Bool) :
    PullParser × Option XmlEvent :=
  let name := p.data.element_name.getD ⟨none, "", none⟩
  let attributes := p.data.attributes
  let p := { p with data.element_name := none, data.attributes := [] }
  match resolve_element_name p.nst name with
  | none => (p, some (p.selfError ("Element " ++ name.show ++ " prefix is unbound")))
  | some name =>
      match resolve_attributes p.nst attributes with
      | .error an =>
          (p, some (p.selfError ("Attribute " ++ an.show ++ " prefix is unbound")))
      | .ok attributes =>
          let p :=
            if emit_end_elem then
              { p with pop_namespace := true, next_event := some (.EndElement name) }
            else { p with est := name :: p.est }
          ({ p with st := .OutsideTag },
           some (.StartElement name (attributes.map AttributeData.into_attribute)
                   p.nst.squash))

/-- The name-complete continuation of `inside_opening_tag`'s `InsideName`
substate (lines 821-829).  The source's `unreachable!()` arm is modelled
as a no-op: `read_qualified_name` with `OpeningTagNameTarget` only invokes
the continuation with `TagEnd`, `EmptyTagEnd` or `Whitespace`. -/
def openNameAction (this : PullParser) (token : Token) (name : Name) :
    PullParser × Option XmlEvent :=
  let this := { this with data.element_name := some name }
  match token with
  | .TagEnd => this.emit_start_element false
  | .EmptyTagEnd => this.emit_start_element true
  | .Whitespace _ => ({ this with st := .InsideOpeningTag .InsideTag }, none)
  | _ => (this, none)

/-- The plain-attribute arm of `inside_opening_tag`'s value continuation
(lines 891-897): push the attribute and return to `InsideTag`. -/
def plainAttr (this : PullParser) (name : Name) (value : String) :
    PullParser × Option XmlEvent :=
  ({ this with data.attributes := this.data.attributes ++ [⟨name, value⟩],
               st := .InsideOpeningTag .InsideTag }, none)

/-- `PullParser::inside_opening_tag` (lines 813-901). -/
def PullParser.inside_opening_tag (p : PullParser) (t : Token) (s : OpeningTagSubstate) :
    PullParser × Option XmlEvent :=
  match s with
  | .InsideName =>
      p.read_qualified_name t .OpeningTagNameTarget (fun this token name =>
        match name.pfx with
        | some pfx =>
            -- namespace::NS_XML_PREFIX = "xml", namespace::NS_XMLNS_PREFIX = "xmlns"
            if pfx == "xml" || pfx == "xmlns" then
              (this, some (this.selfError
                ("\x27" ++ pfx ++ "\x27 cannot be an element name prefix")))
            else openNameAction this token name
        | none => openNameAction this token name)
  | .InsideTag =>
      match t with
      | .Whitespace _ => (p, none)
      | .Character c =>
          if is_name_start_char c then
            ({ p with buf := p.buf.push c, st := .InsideOpeningTag .InsideAttributeName },
             none)
          else (p, some (p.selfError ("Unexpected token inside opening tag: " ++ t.to_str)))
      | .TagEnd => p.emit_start_element false
      | .EmptyTagEnd => p.emit_start_element true
      | _ => (p, some (p.selfError ("Unexpected token inside opening tag: " ++ t.to_str)))
  | .InsideAttributeName =>
      p.read_qualified_name t .AttributeNameTarget (fun this token name =>
        let this := { this with data.attr_name := some name }
        match token with
        | .Whitespace _ => ({ this with st := .InsideOpeningTag .AfterAttributeName }, none)
        | .EqualsSign => ({ this with st := .InsideOpeningTag .InsideAttributeValue }, none)
        | _ => (this, none))
  | .AfterAttributeName =>
      match t with
      | .Whitespace _ => (p, none)
      | .EqualsSign => ({ p with st := .InsideOpeningTag .InsideAttributeValue }, none)
      | _ => (p, some (p.selfError ("Unexpected token inside opening tag: " ++ t.to_str)))
  | .InsideAttributeValue =>
      p.read_attribute_value t (fun this value =>
        let name := this.data.attr_name.getD ⟨none, "", none⟩
        let this := { this with data.attr_name := none }
        match name.pfx with
        | some pfx =>
            -- declaring a new prefix; namespace::NS_XMLNS_PREFIX = "xmlns"
            if pfx == "xmlns" then
              let ln := name.local_name
              if ln == "xmlns" then
                (this, some (this.selfError "Cannot redefine \x27xmlns\x27 prefix"))
              else if ln == "xml" && value != NS_XML_URI then
                (this, some (this.selfError
                  "\x27xml\x27 prefix cannot be rebound to another value"))
              else if value.isEmpty then
                (this, some (this.selfError ("Cannot undefine a prefix: " ++ ln)))
              else
                ({ this with nst := this.nst.put (some name.local_name) value,
                             st := .InsideOpeningTag .InsideTag }, none)
            else plainAttr this name value
        | none =>
            -- declaring the default namespace; the source compares the VALUE
            -- against the prefix constants NS_XMLNS_PREFIX = "xmlns" and
            -- NS_XML_PREFIX = "xml" (not against the namespace URIs)
            if name.local_name == "xmlns" then
              if value == "xmlns" || value == "xml" then
                (this, some (this.selfError
                  ("Namespace \x27" ++ value ++ "\x27 cannot be default")))
              else
                ({ this with nst := this.nst.put none value,
                             st := .InsideOpeningTag .InsideTag }, none)
            else plainAttr this name value)

/-- `PullParser::emit_end_element` (lines 904-922).  The
`est.pop().unwrap()` is modelled with a default name for the empty-stack
case; claim C10 shows that case is unreachable. -/
def PullParser.emit_end_element (p : PullParser) : PullParser × Option XmlEvent :=
  let name := p.data.element_name.getD ⟨none, "", none⟩
  let p := { p with data.element_name := none }
  match resolve_element_name p.nst name with
  | none => (p, some (p.selfError ("Element " ++ name.show ++ " prefix is unbound")))
  | some name =>
      let op_name := p.est.head?.getD ⟨none, "", none⟩
      let p := { p with est := p.est.tail }
      if name == op_name then
        ({ p with pop_namespace := true, st := .OutsideTag }, some (.EndElement name))
      else
        (p, some (p.selfError
          ("Unexpected closing tag: " ++ name.show ++ ", expected " ++ op_name.show)))

/-- The name-complete continuation of `inside_closing_tag_name`'s
`CTInsideName` substate (lines 931-938). -/
def closingNameAction (this : PullParser) (token : Token) (name : Name) :
    PullParser × Option XmlEvent :=
  let this := { this with data.element_name := some name }
  match token with
  | .Whitespace _ => ({ this with st := .InsideClosingTag .CTAfterName }, none)
  | .TagEnd => this.emit_end_element
  | _ => (this, some (this.selfError
      ("Unexpected token inside closing tag: " ++ token.to_str)))

/-- `PullParser::inside_closing_tag_name` (lines 924-947). -/
def PullParser.inside_closing_tag_name (p : PullParser) (t : Token)
    (s : ClosingTagSubstate) : PullParser × Option XmlEvent :=
  match s with
  | .CTInsideName =>
      p.read_qualified_name t .ClosingTagNameTarget (fun this token name =>
        match name.pfx with
        | some pfx =>
            if pfx == "xml" || pfx == "xmlns" then
              (this, some (this.selfError
                ("\x27" ++ pfx ++ "\x27 cannot be an element name prefix")))
            else closingNameAction this token name
        | none => closingNameAction this token name)
  | .CTAfterName =>
      match t with
      | .Whitespace _ => (p, none)
      | .TagEnd => p.emit_end_element
      | _ => (p, some (p.selfError ("Unexpected token inside closing tag: " ++ t.to_str)))

/-- The shared tail of `inside_comment` (lines 965-967): ignored comments
leave the buffer alone, others append the token text. -/
def commentOther (p : PullParser) (t : Token) : PullParser × Option XmlEvent :=
  if p.config.ignore_comments then (p, none)
  else ({ p with buf := p.buf ++ t.to_str }, none)

/-- `PullParser::inside_comment` (lines 949-969). -/
def PullParser.inside_comment (p : PullParser) (t : Token) : PullParser × Option XmlEvent :=
  match t with
  | .Chunk s =>
      if s == "--" then (p, some (p.selfError "Unexpected token inside a comment: --"))
      else commentOther p t
  | .CommentEnd =>
      if p.config.ignore_comments then ({ p with st := .OutsideTag }, none)
      else
        let data := p.buf
        ({ p with buf := "", st := .OutsideTag }, some (.Comment data))
  | _ => commentOther p t

/-- `PullParser::inside_cdata` (lines 971-991).  With
`cdata_to_characters` the buffer is kept for the surrounding character
run; otherwise it is drained into a CData event. -/
def PullParser.inside_cdata (p : PullParser) (t : Token) : PullParser × Option XmlEvent :=
  match t with
  | .CDataEnd =>
      if p.config.cdata_to_characters then ({ p with st := .OutsideTag }, none)
      else
        let data := p.buf
        ({ p with buf := "", st := .OutsideTag }, some (.CData data))
  | .Whitespace _ => ({ p with buf := p.buf ++ t.to_str }, none)
  | _ => ({ p with inside_whitespace := false, buf := p.buf ++ t.to_str }, none)

/-- One digit of `from_str_radix`: decimal digits and both hexadecimal
letter cases, bounded by the radix. -/
def digit_value (radix : Nat) (c : Char) : Option Nat :=
  let n := c.toNat
  let v :=
    if 48 ≤ n && n ≤ 57 then some (n - 48)
    else if 97 ≤ n && n ≤ 102 then some (n - 87)
    else if 65 ≤ n && n ≤ 70 then some (n - 55)
    else none
  match v with
  | some d => if d < radix then some d else none
  | none => none

/-- `std::num::from_str_radix::<u32>`: all characters must be digits of
the radix and the value must fit in `u32`; the empty string fails. -/
def from_str_radix (s : String) (radix : Nat) : Option Nat :=
  if s.isEmpty then none
  else
    match s.data.foldl
      (fun acc c =>
        match acc with
        | none => none
        | some a => (digit_value radix c).map (fun d => a * radix + d)) (some 0) with
    | none => none
    | some n => if n ≤ 0xFFFFFFFF then some n else none

/-- `char::from_u32`: any code point that is not a surrogate and is at
most `0x10FFFF`; note that 0 (the NUL character) is a valid `char`. -/
def char_from_u32 (n : Nat) : Option Char :=
  if Nat.isValidChar n then some (Char.ofNat n) else none

/-- The `ReferenceEnd` decoding of `inside_reference` (lines 1006-1038).
The source measures `name.len()` in bytes and slices bytes; for the
`#`/`#x` tests the relevant characters are ASCII, so character operations
coincide. -/
def decode_reference (name : String) : Except String Char :=
  if name == "lt" then .ok '<'
  else if name == "gt" then .ok '>'
  else if name == "amp" then .ok '&'
  else if name == "apos" then .ok (Char.ofNat 39)
  else if name == "quot" then .ok (Char.ofNat 34)
  else if name == "" then .error "Encountered empty entity"
  else if name.length > 2 && name.take 2 == "#x" then
    let num_str := name.drop 2
    if num_str == "0" then .error "Null character entity is not allowed"
    else
      match (from_str_radix num_str 16).bind char_from_u32 with
      | some c => .ok c
      | none => .error ("Invalid hexadecimal character number in an entity: " ++ name)
  else if name.length > 1 && name.take 1 == "#" then
    let num_str := name.drop 1
    if num_str == "0" then .error "Null character entity is not allowed"
    else
      match (from_str_radix num_str 10).bind char_from_u32 with
      | some c => .ok c
      | none => .error ("Invalid decimal character number in an entity: " ++ name)
  else .error ("Unexpected entity: " ++ name)

/-- `PullParser::inside_reference` (lines 993-1050). -/
def PullParser.inside_reference (p : PullParser) (t : Token) (prev_st : State) :
    PullParser × Option XmlEvent :=
  match t with
  | .Character c =>
      if (!p.data.ref_data.isEmpty && is_name_char c) ||
         (p.data.ref_data.isEmpty && (is_name_start_char c || c == '#')) then
        ({ p with data.ref_data := p.data.ref_data.push c }, none)
      else (p, some (p.selfError ("Unexpected token inside an entity: " ++ t.to_str)))
  | .ReferenceEnd =>
      let name := p.data.ref_data
      let p := { p with data.ref_data := "" }
      match decode_reference name with
      | .ok c => ({ p with buf := p.buf.push c, st := prev_st }, none)
      | .error e => (p, some (.Error e))
  | _ => (p, some (p.selfError ("Unexpected token inside an entity: " ++ t.to_str)))

/-- `PullParser::dispatch_token` (lines 312-324). -/
def PullParser.dispatch_token (p : PullParser) (t : Token) : PullParser × Option XmlEvent :=
  match p.st with
  | .OutsideTag => p.outside_tag t
  | .InsideProcessingInstruction s => p.inside_processing_instruction t s
  | .InsideDeclaration s => p.inside_declaration t s
  | .InsideDoctype => p.inside_doctype t
  | .InsideOpeningTag s => p.inside_opening_tag t s
  | .InsideClosingTag s => p.inside_closing_tag_name t s
  | .InsideComment => p.inside_comment t
  | .InsideCData => p.inside_cdata t
  | .InsideReference s => p.inside_reference t s

/-- A lexer result: a token or a lexer error message (§6). -/
abbrev LexRes := Except String Token

/-- The end-of-stream case analysis of `next` (lines 291-302). -/
def PullParser.end_of_stream_event (p : PullParser) : XmlEvent :=
  if p.depth == 0 then
    if p.encountered_element && p.st == .OutsideTag then .EndDocument
    else if !p.encountered_element then
      p.selfError "Unexpected end of stream: no root element found"
    else p.selfError "Unexpected end of stream"
  else p.selfError "Unexpected end of stream: still inside the root element"

/-- Lines 272-276 of `next`: EndDocument and Error become the sticky
finish event. -/
def markFinish (p : PullParser) (ev : XmlEvent) : PullParser :=
  match ev with
  | .EndDocument => { p with finish_event := some ev }
  | .Error _ => { p with finish_event := some ev }
  | _ => p

/-- The token loop of `next` (lines 268-304): dispatch tokens until an
event is produced, pass lexer errors through as sticky errors, and decide
the end-of-stream event when the lexer is exhausted. -/
def PullParser.runLoop (p : PullParser) : List LexRes → XmlEvent × PullParser × List LexRes
  | [] =>
      let ev := p.end_of_stream_event
      (ev, { p with finish_event := some ev }, [])
  | .error e :: rest =>
      let ev := XmlEvent.Error e
      (ev, { p with finish_event := some ev }, rest)
  | .ok t :: rest =>
      match p.dispatch_token t with
      | (p', some ev) => (ev, markFinish p' ev, rest)
      | (p', none) => p'.runLoop rest

/-- `PullParser::next` (lines 254-305): replay the sticky finish event,
drain the one-slot lookahead, perform the deferred namespace pop, then run
the token loop. -/
def PullParser.next (p : PullParser) (ts : List LexRes) :
    XmlEvent × PullParser × List LexRes :=
  match p.finish_event with
  | some ev => (ev, p, ts)
  | none =>
      match p.next_event with
      | some ev => (ev, { p with next_event := none }, ts)
      | none =>
          let p :=
            if p.pop_namespace then { p with pop_namespace := false, nst := p.nst.pop }
            else p
          p.runLoop ts

/-- `n` successive calls to `next` on the same token stream, collecting
the returned events. -/
def PullParser.runNexts : PullParser → List LexRes → Nat →
    List XmlEvent × PullParser × List LexRes
  | p, ts, 0 => ([], p, ts)
  | p, ts, n + 1 =>
      let r := p.next ts
      let r' := r.2.1.runNexts r.2.2 n
      (r.1 :: r'.1, r'.2.1, r'.2.2)

def isStartElement : XmlEvent → Bool
  | .StartElement .. => true
  | _ => false

def isEndElement : XmlEvent → Bool
  | .EndElement _ => true
  | _ => false

def isErrorEvent : XmlEvent → Bool
  | .Error _ => true
  | _ => false

/-- Number of StartElement events in a list of emitted events. -/
def countStart (evs : List XmlEvent) : Nat := (evs.filter isStartElement).length

/-- Number of EndElement events in a list of emitted events. -/
def countEnd (evs : List XmlEvent) : Nat := (evs.filter isEndElement).length

/-- True when no Error event occurs in the list. -/
def noErrors (evs : List XmlEvent) : Bool := evs.all (fun e => !isErrorEvent e)

/-- 1 when an event is waiting in the one-slot lookahead queue. -/
def pendingEnd (p : PullParser) : Nat := if p.next_event.isSome then 1 else 0

/-- True for the two terminal events of the driver (lines 272-276). -/
def isTerminal : XmlEvent → Bool
  | .EndDocument => true
  | .Error _ => true
  | _ => false

/-- 1 when the optional emitted event is a StartElement. -/
def startCt : Option XmlEvent → Nat
  | some (.StartElement ..) => 1
  | _ => 0

/-- 1 when the optional emitted event is an EndElement. -/
def endCt : Option XmlEvent → Nat
  | some (.EndElement _) => 1
  | _ => 0

/-- The per-state component of the parser invariant: opening-tag states
occur only after a root element was encountered, closing-tag states only
with a non-empty element stack; a reference state carries the condition of
its return state. -/
def StateOK : State → List Name → Bool → Prop
  | .InsideOpeningTag _, _, enc => enc = true
  | .InsideClosingTag _, est, enc => est ≠ [] ∧ enc = true
  | .InsideReference s, est, enc => StateOK s est enc
  | _, _, _ => True

/-- The one-slot lookahead queue holds nothing but EndElement events. -/
def nextEvOK (p : PullParser) : Prop :=
  p.next_event = none ∨ ∃ n, p.next_event = some (XmlEvent.EndElement n)

/-- The sticky finish slot holds nothing but terminal events. -/
def finishOK (p : PullParser) : Prop :=
  p.finish_event = none ∨ p.finish_event = some .EndDocument ∨
  ∃ m, p.finish_event = some (.Error m)

/-- The parser invariant maintained across calls to `next`. -/
structure ParserInv (p : PullParser) : Prop where
  hne : nextEvOK p
  hfin : finishOK p
  hst : p.finish_event = none → StateOK p.st p.est p.encountered_element
  henc : p.encountered_element = false → p.est = []

/-- What one dispatch step guarantees, relative to the parser `p` it
started from (which had an empty lookahead slot): the stack/lookahead
accounting balances the emitted Start/EndElement (except on an error,
which becomes sticky), the lookahead holds only EndElements, a silent step
leaves the lookahead empty, the stack is empty while no root was seen,
the finish slot is untouched, and the state condition holds again unless a
terminal event was emitted. -/
def DOK (p : PullParser) (r : PullParser × Option XmlEvent) : Prop :=
  ((∃ m, r.2 = some (XmlEvent.Error m)) ∨
     r.1.est.length + pendingEnd r.1 + endCt r.2 = p.est.length + startCt r.2) ∧
  nextEvOK r.1 ∧
  (r.2 = none → r.1.next_event = none) ∧
  (r.1.encountered_element = false → r.1.est = []) ∧
  r.1.finish_event = p.finish_event ∧
  ((∃ e, r.2 = some e ∧ isTerminal e = true) ∨
     StateOK r.1.st r.1.est r.1.encountered_element)

/-- The all-options-off configuration used by the concrete runs below. -/
def cfg0 : ParserConfig := ⟨false, false, false, false, false⟩

/-- A parser inside the value of the attribute `xmlns="…"` of an opening
tag (as reached from input `<a xmlns="v` with the value `v` accumulated in
the buffer), about to dispatch the closing quote. -/
def defaultNsDeclParser (v : String) : PullParser :=
  { PullParser.new cfg0 with
      st := .InsideOpeningTag .InsideAttributeValue,
      nst := NamespaceStack.default.push_empty,
      encountered_element := true,
      parsed_declaration := true,
      buf := v,
      data := { (PullParser.new cfg0).data with
                  element_name := some ⟨none, "a", none⟩,
                  attr_name := some ⟨none, "xmlns", none⟩,
                  quote := some .DoubleQuoteToken } }

/-- A parser that has accumulated the reference text `r` (state
`InsideReference OutsideTag`, inside the root element), about to dispatch
`ReferenceEnd`. -/
def refParser (r : String) : PullParser :=
  { PullParser.new cfg0 with
      st := .InsideReference .OutsideTag,
      encountered_element := true,
      parsed_declaration := true,
      est := [⟨none, "a", none⟩],
      data := { (PullParser.new cfg0).data with ref_data := r } }

/-- Token stream of `<?XML a?>` at the very start of a document. -/
def c3Tokens : List LexRes :=
  [.ok .ProcessingInstructionStart, .ok (.Character 'X'), .ok (.Character 'M'),
   .ok (.Character 'L'), .ok (.Whitespace ' '), .ok (.Character 'a'),
   .ok .ProcessingInstructionEnd]

/-- A parser whose buffer holds the PI name `XML` (state `PIInsideName`). -/
def piNameParser : PullParser :=
  { PullParser.new cfg0 with
      st := .InsideProcessingInstruction .PIInsideName, buf := "XML" }

/-- Token stream of the self-closing document `<a/>`. -/
def c4Tokens : List LexRes :=
  [.ok .OpeningTagStart, .ok (.Character 'a'), .ok .EmptyTagEnd]

/-- Token stream of `<r>&#65;<`: a numeric reference decoding to `A`
followed by the start of markup, which flushes the character buffer. -/
def c7Tokens : List LexRes :=
  [.ok .OpeningTagStart, .ok (.Character 'r'), .ok .TagEnd,
   .ok .ReferenceStart, .ok (.Character '#'), .ok (.Character '6'),
   .ok (.Character '5'), .ok .ReferenceEnd, .ok .OpeningTagStart]

/-- A parser inside an opening tag of element `a` (after `<a`, with a new
namespace scope pushed), with the tag name stored and the attribute list
empty — the state from which `EmptyTagEnd` closes a self-closing tag. -/
def selfClosingParser : PullParser :=
  { PullParser.new cfg0 with
      st := .InsideOpeningTag .InsideTag,
      nst := NamespaceStack.default.push_empty,
      encountered_element := true,
      parsed_declaration := true,
      data := { (PullParser.new cfg0).data with element_name := some ⟨none, "a", none⟩ } }

/-- A parser about to emit EndElement for closing name `b` while the top
of the element stack is `a` (as reached from `<a>x</b`). -/
def mismatchParser : PullParser :=
  { PullParser.new cfg0 with
      st := .InsideClosingTag .CTInsideName,
      nst := NamespaceStack.default.push_empty,
      encountered_element := true,
      parsed_declaration := true,
      est := [⟨none, "a", none⟩],
      data := { (PullParser.new cfg0).data with element_name := some ⟨none, "b", none⟩ } }

/-- Token stream of `<a>x</`: ends with the parser inside a closing tag. -/
def c10Tokens : List LexRes :=
  [.ok .OpeningTagStart, .ok (.Character 'a'), .ok .TagEnd,
   .ok (.Character 'x'), .ok .ClosingTagStart]

/-- The sticky error produced by a fresh parser on an empty stream. -/
def noRootError : XmlEvent :=
  .Error "Unexpected end of stream: no root element found"

/-- A fresh parser after its empty-stream error became sticky. -/
def noRootParser : PullParser :=
  { PullParser.new cfg0 with finish_event := some noRootError }

/-- C1: when a default namespace declaration (`xmlns="…"` with no prefix)
completes, the source compares the value against the literal prefix
strings `"xmlns"`/`"xml"` rather than against the namespace URIs, so:
the `xml` namespace URI as a value is bound without an error (first two
conjuncts), the `xmlns` namespace URI likewise (third), while the literal
value `"xml"` is rejected (fourth) — the opposite of the claim at every
one of these inputs. -/
theorem c1_default_ns_value_eval :
    ((defaultNsDeclParser NS_XML_URI).dispatch_token .DoubleQuote).2 = none ∧
    ((defaultNsDeclParser NS_XML_URI).dispatch_token .DoubleQuote).1.nst.get none =
      some NS_XML_URI ∧
    ((defaultNsDeclParser NS_XMLNS_URI).dispatch_token .DoubleQuote).2 = none ∧
    ((defaultNsDeclParser "xml").dispatch_token .DoubleQuote).2 =
      some (.Error "Namespace \x27xml\x27 cannot be default") := by
  decide

/-- C2: on `ReferenceEnd`, only the exact digit strings `0` after `#` or
`#x` are rejected as null character entities; the spellings `#00` and
`#x00` of the value 0 decode to the NUL character, which is appended to
the character buffer with no error. -/
theorem c2_zero_reference_eval :
    ((refParser "#0").dispatch_token .ReferenceEnd).2 =
      some (.Error "Null character entity is not allowed") ∧
    ((refParser "#x0").dispatch_token .ReferenceEnd).2 =
      some (.Error "Null character entity is not allowed") ∧
    ((refParser "#00").dispatch_token .ReferenceEnd).2 = none ∧
    ((refParser "#00").dispatch_token .ReferenceEnd).1.buf =
      String.singleton (Char.ofNat 0) ∧
    ((refParser "#x00").dispatch_token .ReferenceEnd).2 = none ∧
    ((refParser "#x00").dispatch_token .ReferenceEnd).1.buf =
      String.singleton (Char.ofNat 0) := by
  decide

/-- C3 counterexample: the processing instruction `<?XML a?>` at the
pre-document point (name terminated by whitespace) is not an error: the
first pull returns a ProcessingInstruction event named `XML`. -/
theorem c3_pre_document_counterexample :
    ((PullParser.new cfg0).runNexts c3Tokens 1).1 =
      [XmlEvent.ProcessingInstruction "XML" (some "a")] := by
  decide

/-- C4 counterexample: after the two pulls on `<a/>` that return
StartDocument and StartElement, one StartElement and no EndElement have
been emitted, yet the element stack is empty (the claim asserts length
1 − 0 = 1 at this point, where the paired EndElement still waits in the
lookahead slot). -/
theorem c4_lookahead_counterexample :
    countStart ((PullParser.new cfg0).runNexts c4Tokens 2).1 = 1 ∧
    countEnd ((PullParser.new cfg0).runNexts c4Tokens 2).1 = 0 ∧
    ((PullParser.new cfg0).runNexts c4Tokens 2).2.1.est.length = 0 ∧
    ((PullParser.new cfg0).runNexts c4Tokens 2).2.1.next_event =
      some (.EndElement ⟨none, "a", none⟩) := by
  decide

/-- C7: on the input `<r>&#65;<`, the character decoded from the numeric
reference is appended to the buffer without clearing `inside_whitespace`,
so the flush on the following markup start emits `Whitespace "A"` — even
though the buffer content `A` is not whitespace (the claim requires
`Characters "A"` for a non-all-whitespace buffer). -/
theorem c7_reference_flush_eval :
    ((PullParser.new cfg0).runNexts c7Tokens 3).1.getLast? =
      some (XmlEvent.Whitespace "A") ∧
    is_whitespace_char 'A' = false := by
  decide

/-- C3 (amended): for every non-canonical capitalization of `xml` as a PI
name, termination by `ProcessingInstructionEnd` is always an error, while
termination by whitespace is an error exactly when a root element has
already been encountered or a declaration has already been parsed; at the
pre-document point a whitespace-terminated non-canonical name is accepted
and the parser proceeds to read ordinary PI data. -/
theorem c3_xml_pi_capitalization (p : PullParser) (nm : String)
    (hnm : nm ∈ ["xmL", "xMl", "xML", "Xml", "XmL", "XMl", "XML"])
    (hbuf : p.buf = nm) (c : Char) :
    (∃ m, (p.inside_processing_instruction .ProcessingInstructionEnd .PIInsideName).2 =
       some (.Error m)) ∧
    ((p.encountered_element || p.parsed_declaration) = true →
       ∃ m, (p.inside_processing_instruction (.Whitespace c) .PIInsideName).2 =
         some (.Error m)) ∧
    (p.encountered_element = false → p.parsed_declaration = false →
       (p.inside_processing_instruction (.Whitespace c) .PIInsideName).2 = none ∧
       (p.inside_processing_instruction (.Whitespace c) .PIInsideName).1.st =
         .InsideProcessingInstruction .PIInsideData) := by
  have hch : (nm == "") = false ∧ (nm == "xml") = false ∧
      xmlCaseVariants.contains nm = true := by
    fin_cases hnm <;> decide
  obtain ⟨h1, h2, h3⟩ := hch
  refine ⟨?_, ?_, ?_⟩
  · simp only [PullParser.inside_processing_instruction, PullParser.selfError,
      hbuf, h1, h2, h3]
    simp
  · intro henc
    simp only [PullParser.inside_processing_instruction, PullParser.selfError,
      hbuf, h1, h2, h3, henc]
    simp
  · intro he hp
    simp only [PullParser.inside_processing_instruction, PullParser.selfError,
      hbuf, h1, h2, h3, he, hp]
    simp

/-- Witness for C3 at the concrete name `XML`: terminated by
`ProcessingInstructionEnd`, it is an error even at the pre-document
point. -/
theorem c3_xml_pi_capitalization_witness :
    ∃ m, (piNameParser.inside_processing_instruction .ProcessingInstructionEnd
      .PIInsideName).2 = some (XmlEvent.Error m) :=
  (c3_xml_pi_capitalization piNameParser "XML" (by decide) rfl ' ').1

/-- C6: with both event slots empty, a call to `next` on an exhausted
lexer returns exactly one of four outcomes: EndDocument when the stack is
empty, a root was seen and the state is OutsideTag; the no-root error when
no root was ever seen; the still-inside error when the stack is non-empty;
and the generic end-of-stream error otherwise.  (The hypothesis `he` is
the reachable-state fact that the stack is empty while no root element has
been encountered.) -/
theorem c6_end_of_stream (p : PullParser)
    (hf : p.finish_event = none) (hn : p.next_event = none)
    (he : p.encountered_element = false → p.est = []) :
    (p.est.length = 0 → p.encountered_element = true → p.st = .OutsideTag →
       (p.next []).1 = .EndDocument) ∧
    (p.encountered_element = false →
       (p.next []).1 = .Error "Unexpected end of stream: no root element found") ∧
    (p.est.length > 0 →
       (p.next []).1 = .Error "Unexpected end of stream: still inside the root element") ∧
    (p.est.length = 0 → p.encountered_element = true → p.st ≠ .OutsideTag →
       (p.next []).1 = .Error "Unexpected end of stream") := by
  have key : (p.next []).1 = p.end_of_stream_event := by
    simp only [PullParser.next, hf, hn]
    by_cases hp : p.pop_namespace <;>
      simp [hp, PullParser.runLoop, PullParser.end_of_stream_event, PullParser.depth,
        PullParser.selfError]
  rw [key]
  refine ⟨?_, ?_, ?_, ?_⟩
  · intro h1 h2 h3
    simp [PullParser.end_of_stream_event, PullParser.depth, h1, h2, h3]
  · intro h1
    have h0 := he h1
    simp [PullParser.end_of_stream_event, PullParser.depth, h0, h1, PullParser.selfError]
  · intro h1
    have h0 : p.est.length ≠ 0 := Nat.pos_iff_ne_zero.mp h1
    simp [PullParser.end_of_stream_event, PullParser.depth, h0, PullParser.selfError]
  · intro h1 h2 h3
    simp [PullParser.end_of_stream_event, PullParser.depth, h1, h2, h3,
      PullParser.selfError]

/-- Witness for C6 at a fresh parser on an empty stream: no root element
was seen, so the no-root error is returned. -/
theorem c6_end_of_stream_witness :
    ((PullParser.new cfg0).next []).1 =
      .Error "Unexpected end of stream: no root element found" :=
  (c6_end_of_stream (PullParser.new cfg0) rfl rfl (fun _ => rfl)).2.1 rfl

/-- C9: when a closing tag's name is complete and `emit_end_element` runs:
an unbound prefix is an error that leaves the element stack untouched;
otherwise the top of the stack is popped and compared with the resolved
name — on mismatch the quoted error is returned (stack already popped), on
match the deferred-namespace-pop flag is set, the state returns to
OutsideTag and EndElement is emitted. -/
theorem c9_emit_end_element (p : PullParser) (nm : Name)
    (hname : p.data.element_name = some nm) :
    (p.nst.get nm.pfx = none →
       (p.emit_end_element).2 =
         some (.Error ("Element " ++ nm.show ++ " prefix is unbound")) ∧
       (p.emit_end_element).1.est = p.est) ∧
    (∀ nm' top rest, resolve_element_name p.nst nm = some nm' →
       p.est = top :: rest →
       (nm' = top →
          p.emit_end_element =
            ({ p with data.element_name := none, est := rest, pop_namespace := true,
                      st := .OutsideTag }, some (.EndElement nm'))) ∧
       (nm' ≠ top →
          p.emit_end_element =
            ({ p with data.element_name := none, est := rest },
             some (.Error ("Unexpected closing tag: " ++ nm'.show ++ ", expected " ++
                           top.show))))) := by
  constructor
  · intro hget
    have hres : resolve_element_name p.nst nm = none := by
      simp [resolve_element_name, hget]
    simp [PullParser.emit_end_element, hname, hres, PullParser.selfError]
  · intro nm' top rest hres hest
    constructor
    · intro heq
      simp [PullParser.emit_end_element, hname, hres, hest, heq]
    · intro hne
      simp [PullParser.emit_end_element, hname, hres, hest, hne, PullParser.selfError]

/-- Witness for C9 at the state reached from `<a>x</b`: the closing name
`b` does not match the popped `a`, giving the quoted error with the stack
popped. -/
theorem c9_emit_end_element_witness :
    mismatchParser.emit_end_element =
      ({ mismatchParser with data.element_name := none, est := [] },
       some (.Error "Unexpected closing tag: b, expected a")) :=
  ((c9_emit_end_element mismatchParser ⟨none, "b", none⟩ rfl).2
      ⟨none, "b", none⟩ ⟨none, "a", none⟩ [] (by decide) rfl).2 (by decide)

/-- C8: a self-closing tag whose prefixes resolve emits StartElement,
queues the paired EndElement in the one-slot lookahead (so the next pull
returns it and consumes no tokens), does not push the element stack, sets
the deferred-namespace-pop flag but leaves the namespace stack in place
while EndElement is delivered; only the pull after that pops the scope. -/
theorem c8_self_closing (p : PullParser) (nm nm' : Name) (attrs' : List AttributeData)
    (hname : p.data.element_name = some nm)
    (hres : resolve_element_name p.nst nm = some nm')
    (hattrs : resolve_attributes p.nst p.data.attributes = .ok attrs')
    (hfin : p.finish_event = none) :
    ∃ p', p.emit_start_element true =
        (p', some (.StartElement nm' (attrs'.map AttributeData.into_attribute)
                    p.nst.squash)) ∧
      p'.next_event = some (.EndElement nm') ∧
      p'.est = p.est ∧
      p'.pop_namespace = true ∧
      p'.nst = p.nst ∧
      (∀ ts, p'.next ts = (.EndElement nm', { p' with next_event := none }, ts)) ∧
      (({ p' with next_event := none }).next []).2.1.nst = p.nst.pop := by
  refine ⟨{ p with
      data.element_name := none
      data.attributes := []
      pop_namespace := true
      next_event := some (.EndElement nm')
      st := .OutsideTag }, ?_, rfl, rfl, rfl, rfl, ?_, ?_⟩
  · simp [PullParser.emit_start_element, hname, hres, hattrs]
  · intro ts
    simp [PullParser.next, hfin]
  · simp [PullParser.next, hfin, PullParser.runLoop]

/-- Witness for C8 at the state reached from `<a` followed by
`EmptyTagEnd`. -/
theorem c8_self_closing_witness :
    ∃ p', selfClosingParser.emit_start_element true =
        (p', some (.StartElement ⟨none, "a", none⟩ []
                    selfClosingParser.nst.squash)) ∧
      p'.next_event = some (.EndElement ⟨none, "a", none⟩) ∧
      p'.est = selfClosingParser.est ∧
      p'.pop_namespace = true ∧
      p'.nst = selfClosingParser.nst ∧
      (∀ ts, p'.next ts =
        (.EndElement ⟨none, "a", none⟩, { p' with next_event := none }, ts)) ∧
      (({ p' with next_event := none }).next []).2.1.nst =
        selfClosingParser.nst.pop :=
  c8_self_closing selfClosingParser ⟨none, "a", none⟩ ⟨none, "a", none⟩ []
    rfl rfl rfl rfl

/-- A dispatch step that only rewrites scratch state (buffer, markup data,
namespace bindings, flags) and moves to a state whose condition holds
satisfies `DOK`. -/
theorem DOK_benign {p q : PullParser} {ev : Option XmlEvent}
    (hest : q.est = p.est) (hne' : q.next_event = p.next_event)
    (hfin : q.finish_event = p.finish_event)
    (henc' : q.encountered_element = p.encountered_element)
    (hnep : p.next_event = none)
    (henc : p.encountered_element = false → p.est = [])
    (hsc : startCt ev = 0) (hec : endCt ev = 0)
    (hstok : StateOK q.st q.est q.encountered_element) :
    DOK p (q, ev) := by
  refine ⟨Or.inr ?_, Or.inl (hne'.trans hnep), fun _ => hne'.trans hnep, ?_,
    hfin, Or.inr hstok⟩
  · simp [pendingEnd, hne', hnep, hsc, hec, hest]
  · intro h
    rw [hest]
    exact henc (henc' ▸ h)

/-- A dispatch step that produces an Error event while leaving the stack,
lookahead, finish slot and root flag alone satisfies `DOK`. -/
theorem DOK_error {p q : PullParser} {m : String}
    (hest : q.est = p.est) (hne' : q.next_event = p.next_event)
    (hfin : q.finish_event = p.finish_event)
    (henc' : q.encountered_element = p.encountered_element)
    (hnep : p.next_event = none)
    (henc : p.encountered_element = false → p.est = []) :
    DOK p (q, some (XmlEvent.Error m)) := by
  refine ⟨Or.inl ⟨m, rfl⟩, Or.inl (hne'.trans hnep), ?_, ?_,
    hfin, Or.inl ⟨_, rfl, rfl⟩⟩
  · intro h
    cases h
  · intro h
    rw [hest]
    exact henc (henc' ▸ h)

/-- `DOK` only reads the stack length and finish slot of its left
argument, so it transfers along parsers agreeing there. -/
theorem DOK_transfer {p q : PullParser} {r : PullParser × Option XmlEvent}
    (h : DOK q r) (hest : q.est = p.est) (hfin : q.finish_event = p.finish_event) :
    DOK p r := by
  obtain ⟨h1, h2, h3, h4, h5, h6⟩ := h
  exact ⟨by rw [← hest]; exact h1, h2, h3, h4, h5.trans hfin, h6⟩

/-- A vacuous root-flag premise from a known-true flag. -/
theorem henc_of_true {p : PullParser} (h : p.encountered_element = true) :
    p.encountered_element = false → p.est = [] := by
  intro hfalse
  rw [h] at hfalse
  cases hfalse

/-- `emit_start_element` satisfies the dispatch-step contract. -/
theorem emit_start_element_DOK (p : PullParser) (b : Bool)
    (hnep : p.next_event = none)
    (henc2 : p.encountered_element = true) :
    DOK p (p.emit_start_element b) := by
  unfold PullParser.emit_start_element
  dsimp only
  split
  · exact DOK_error rfl rfl rfl rfl hnep (henc_of_true henc2)
  · split
    · exact DOK_error rfl rfl rfl rfl hnep (henc_of_true henc2)
    · cases b with
      | true =>
          refine ⟨Or.inr ?_, Or.inr ⟨_, rfl⟩, ?_, henc_of_true henc2, rfl,
            Or.inr trivial⟩
          · simp [pendingEnd, startCt, endCt]
          · intro h
            cases h
      | false =>
          refine ⟨Or.inr ?_, Or.inl hnep, ?_, henc_of_true henc2, rfl,
            Or.inr trivial⟩
          · simp [pendingEnd, startCt, endCt, hnep]
          · intro h
            cases h

/-- `emit_end_element` satisfies the dispatch-step contract when the
element stack is non-empty. -/
theorem emit_end_element_DOK (p : PullParser)
    (hnep : p.next_event = none)
    (hest : p.est ≠ []) (henc2 : p.encountered_element = true) :
    DOK p p.emit_end_element := by
  obtain ⟨top, rest, hcons⟩ : ∃ a l, p.est = a :: l := by
    cases h : p.est with
    | nil => exact absurd h hest
    | cons a l => exact ⟨a, l, rfl⟩
  unfold PullParser.emit_end_element
  dsimp only
  split
  · exact DOK_error rfl rfl rfl rfl hnep (henc_of_true henc2)
  · split
    · refine ⟨Or.inr ?_, Or.inl hnep, ?_, henc_of_true henc2, rfl, Or.inr trivial⟩
      · simp [pendingEnd, hnep, startCt, endCt, hcons]
      · intro h
        cases h
    · refine ⟨Or.inl ⟨_, rfl⟩, Or.inl hnep, ?_, henc_of_true henc2, rfl,
        Or.inl ⟨_, rfl, rfl⟩⟩
      intro h
      cases h

/-- `read_qualified_name` satisfies the dispatch-step contract whenever
its continuation does so from any parser agreeing with the entry parser
on stack, lookahead, finish slot, root flag and state. -/
theorem read_qualified_name_DOK (p : PullParser) (t : Token)
    (target : QualifiedNameTarget)
    (cb : PullParser → Token → Name → PullParser × Option XmlEvent)
    (hnep : p.next_event = none)
    (henc : p.encountered_element = false → p.est = [])
    (hstok : StateOK p.st p.est p.encountered_element)
    (hcb : ∀ q tok nm, q.est = p.est → q.next_event = p.next_event →
       q.finish_event = p.finish_event →
       q.encountered_element = p.encountered_element → q.st = p.st →
       DOK p (cb q tok nm)) :
    DOK p (p.read_qualified_name t target cb) := by
  unfold PullParser.read_qualified_name
  by_cases hb : p.buf.length ≤ 1 <;>
    simp only [hb, if_true, if_false, reduceIte] <;>
    cases t <;>
    (try dsimp only) <;>
    first
      | exact DOK_error rfl rfl rfl rfl hnep henc
      | (split
         · split
           · exact hcb _ _ _ rfl rfl rfl rfl rfl
           · exact DOK_error rfl rfl rfl rfl hnep henc
         · exact DOK_error rfl rfl rfl rfl hnep henc)
      | (split
         · exact hcb _ _ _ rfl rfl rfl rfl rfl
         · exact DOK_error rfl rfl rfl rfl hnep henc)
      | (split
         · split
           · exact DOK_benign rfl rfl rfl rfl hnep henc rfl rfl hstok
           · exact DOK_error rfl rfl rfl rfl hnep henc
         · split
           · exact DOK_benign rfl rfl rfl rfl hnep henc rfl rfl hstok
           · exact DOK_error rfl rfl rfl rfl hnep henc)

/-- `read_attribute_value` satisfies the dispatch-step contract whenever
its continuation does so from any parser agreeing with the entry parser
on stack, lookahead, finish slot, root flag and state. -/
theorem read_attribute_value_DOK (p : PullParser) (t : Token)
    (cb : PullParser → String → PullParser × Option XmlEvent)
    (hnep : p.next_event = none)
    (henc : p.encountered_element = false → p.est = [])
    (hstok : StateOK p.st p.est p.encountered_element)
    (hcb : ∀ q v, q.est = p.est → q.next_event = p.next_event →
       q.finish_event = p.finish_event →
       q.encountered_element = p.encountered_element → q.st = p.st →
       DOK p (cb q v)) :
    DOK p (p.read_attribute_value t cb) := by
  unfold PullParser.read_attribute_value
  cases t <;>
    (try dsimp only) <;>
    first
      | exact DOK_error rfl rfl rfl rfl hnep henc
      | exact DOK_benign rfl rfl rfl rfl hnep henc rfl rfl hstok
      | (split <;>
         first
           | exact DOK_benign rfl rfl rfl rfl hnep henc rfl rfl hstok
           | (split
              · exact hcb _ _ rfl rfl rfl rfl rfl
              · exact DOK_benign rfl rfl rfl rfl hnep henc rfl rfl hstok))

/-- The flush of `outside_tag` emits no Start/EndElement and leaves stack,
lookahead, finish slot, root flag and state untouched. -/
theorem flushEvent_facts (p : PullParser) :
    startCt (p.flushEvent).1 = 0 ∧ endCt (p.flushEvent).1 = 0 ∧
    (p.flushEvent).2.est = p.est ∧
    (p.flushEvent).2.next_event = p.next_event ∧
    (p.flushEvent).2.finish_event = p.finish_event ∧
    (p.flushEvent).2.encountered_element = p.encountered_element ∧
    (p.flushEvent).2.st = p.st := by
  unfold PullParser.flushEvent
  dsimp only
  split_ifs <;> simp [startCt, endCt]

/-- The markup-transition tail of `outside_tag` satisfies the
dispatch-step contract. -/
theorem flushAndGo_DOK (p : PullParser) (t : Token)
    (hnep : p.next_event = none)
    (henc : p.encountered_element = false → p.est = []) :
    DOK p (p.flushAndGo t) := by
  obtain ⟨hsc, hec, hest, hne, hfin, henc', hst⟩ := flushEvent_facts p
  unfold PullParser.flushAndGo
  dsimp only
  cases t <;> (try dsimp only) <;>
    first
      | exact DOK_error hest hne hfin henc' hnep henc
      | exact DOK_benign hest hne hfin henc' hnep henc hsc hec trivial
      | skip
  -- remaining: DoctypeStart, OpeningTagStart, ClosingTagStart
  case DoctypeStart =>
    split
    · exact DOK_benign hest hne hfin henc' hnep henc hsc hec trivial
    · exact DOK_error hest hne hfin henc' hnep henc
  case OpeningTagStart =>
    split
    · refine ⟨Or.inr ?_, Or.inl (hne.trans hnep), fun _ => hne.trans hnep, ?_, hfin,
        Or.inr rfl⟩
      · simp [pendingEnd, hne, hnep, hest, startCt, endCt]
      · intro h
        cases h
    · refine ⟨Or.inr ?_, Or.inl (hne.trans hnep), fun _ => hne.trans hnep, ?_, hfin,
        Or.inr rfl⟩
      · simp only [pendingEnd, hne, hnep, hest, hsc, hec]
        simp
      · intro h
        cases h
  case ClosingTagStart =>
    split
    · rename_i hd
      have hep : p.encountered_element = true := by
        by_cases hb : p.encountered_element
        · exact hb
        · exfalso
          have h0 := henc (by simpa using hb)
          rw [PullParser.depth, hest, h0] at hd
          simp at hd
      refine DOK_benign hest hne hfin henc' hnep henc hsc hec ?_
      refine ⟨?_, henc'.trans hep⟩
      rw [hest]
      intro h0
      rw [PullParser.depth, hest, h0] at hd
      simp at hd
    · exact DOK_error hest hne hfin henc' hnep henc

/-- `outside_tag` satisfies the dispatch-step contract. -/
theorem outside_tag_DOK (p : PullParser) (t : Token)
    (hnep : p.next_event = none)
    (henc : p.encountered_element = false → p.est = [])
    (hstok : StateOK p.st p.est p.encountered_element) :
    DOK p (p.outside_tag t) := by
  unfold PullParser.outside_tag
  cases t <;> (try dsimp only [Token.contains_char_data]) <;> (try dsimp only) <;>
    (repeat' split) <;>
    first
      | exact flushAndGo_DOK p _ hnep henc
      | exact DOK_benign rfl rfl rfl rfl hnep henc rfl rfl trivial
      | exact DOK_benign rfl rfl rfl rfl hnep henc rfl rfl hstok
      | exact DOK_error rfl rfl rfl rfl hnep henc

/-- `inside_doctype` satisfies the dispatch-step contract. -/
theorem inside_doctype_DOK (p : PullParser) (t : Token)
    (hnep : p.next_event = none)
    (henc : p.encountered_element = false → p.est = [])
    (hstok : StateOK p.st p.est p.encountered_element) :
    DOK p (p.inside_doctype t) := by
  unfold PullParser.inside_doctype
  cases t <;>
    first
      | exact DOK_benign rfl rfl rfl rfl hnep henc rfl rfl trivial
      | exact DOK_benign rfl rfl rfl rfl hnep henc rfl rfl hstok

/-- `inside_comment` satisfies the dispatch-step contract. -/
theorem inside_comment_DOK (p : PullParser) (t : Token)
    (hnep : p.next_event = none)
    (henc : p.encountered_element = false → p.est = [])
    (hstok : StateOK p.st p.est p.encountered_element) :
    DOK p (p.inside_comment t) := by
  unfold PullParser.inside_comment commentOther
  cases t <;> (try dsimp only) <;>
    (repeat' split) <;>
    first
      | exact DOK_benign rfl rfl rfl rfl hnep henc rfl rfl trivial
      | exact DOK_benign rfl rfl rfl rfl hnep henc rfl rfl hstok
      | exact DOK_error rfl rfl rfl rfl hnep henc

/-- `inside_cdata` satisfies the dispatch-step contract. -/
theorem inside_cdata_DOK (p : PullParser) (t : Token)
    (hnep : p.next_event = none)
    (henc : p.encountered_element = false → p.est = [])
    (hstok : StateOK p.st p.est p.encountered_element) :
    DOK p (p.inside_cdata t) := by
  unfold PullParser.inside_cdata
  cases t <;> (try dsimp only) <;>
    (repeat' split) <;>
    first
      | exact DOK_benign rfl rfl rfl rfl hnep henc rfl rfl trivial
      | exact DOK_benign rfl rfl rfl rfl hnep henc rfl rfl hstok

/-- `inside_reference` satisfies the dispatch-step contract: the condition
of the return state carried by `InsideReference` is restored when the
resolved character is delivered. -/
theorem inside_reference_DOK (p : PullParser) (t : Token) (prev_st : State)
    (hnep : p.next_event = none)
    (henc : p.encountered_element = false → p.est = [])
    (hstok : StateOK p.st p.est p.encountered_element)
    (hprev : StateOK prev_st p.est p.encountered_element) :
    DOK p (p.inside_reference t prev_st) := by
  unfold PullParser.inside_reference
  cases t <;> (try dsimp only) <;>
    (repeat' split) <;>
    first
      | exact DOK_benign rfl rfl rfl rfl hnep henc rfl rfl hprev
      | exact DOK_benign rfl rfl rfl rfl hnep henc rfl rfl hstok
      | exact DOK_error rfl rfl rfl rfl hnep henc
      | (refine ⟨Or.inl ⟨_, rfl⟩, Or.inl hnep, ?_, ?_, rfl, Or.inl ⟨_, rfl, rfl⟩⟩
         · intro h
           cases h
         · intro h
           exact henc h)

/-- `inside_processing_instruction` satisfies the dispatch-step
contract. -/
theorem inside_processing_instruction_DOK (p : PullParser) (t : Token)
    (s : ProcessingInstructionSubstate)
    (hnep : p.next_event = none)
    (henc : p.encountered_element = false → p.est = [])
    (hstok : StateOK p.st p.est p.encountered_element) :
    DOK p (p.inside_processing_instruction t s) := by
  unfold PullParser.inside_processing_instruction
  cases s <;> cases t <;> (try dsimp only) <;>
    (repeat' split) <;>
    first
      | exact DOK_benign rfl rfl rfl rfl hnep henc rfl rfl trivial
      | exact DOK_benign rfl rfl rfl rfl hnep henc rfl rfl hstok
      | exact DOK_error rfl rfl rfl rfl hnep henc

/-- `inside_declaration` satisfies the dispatch-step contract. -/
theorem inside_declaration_DOK (p : PullParser) (t : Token)
    (s : DeclarationSubstate)
    (hnep : p.next_event = none)
    (henc : p.encountered_element = false → p.est = [])
    (hstok : StateOK p.st p.est p.encountered_element) :
    DOK p (p.inside_declaration t s) := by
  unfold PullParser.inside_declaration PullParser.emit_start_document
  cases s <;> (try dsimp only) <;>
    first
      | -- substates handled by a plain token match
        (cases t <;> (try dsimp only) <;>
          (repeat' split) <;>
          first
            | exact DOK_benign rfl rfl rfl rfl hnep henc rfl rfl trivial
            | exact DOK_benign rfl rfl rfl rfl hnep henc rfl rfl hstok
            | exact DOK_error rfl rfl rfl rfl hnep henc)
      | -- substates handled by the qualified-name micro-parser
        (refine read_qualified_name_DOK p t _ _ hnep henc hstok ?_
         intro q tok nm h1 h2 h3 h4 h5
         (repeat' split) <;>
           first
             | exact DOK_benign h1 h2 h3 h4 hnep henc rfl rfl trivial
             | exact DOK_error h1 h2 h3 h4 hnep henc)
      | -- substates handled by the attribute-value micro-parser
        (refine read_attribute_value_DOK p t _ hnep henc hstok ?_
         intro q v h1 h2 h3 h4 h5
         (repeat' split) <;>
           first
             | exact DOK_benign h1 h2 h3 h4 hnep henc rfl rfl trivial
             | exact DOK_error h1 h2 h3 h4 hnep henc)

/-- `inside_opening_tag` satisfies the dispatch-step contract when a root
element has been encountered (which holds whenever the parser is in an
opening-tag state). -/
theorem inside_opening_tag_DOK (p : PullParser) (t : Token)
    (s : OpeningTagSubstate)
    (hnep : p.next_event = none)
    (henc : p.encountered_element = false → p.est = [])
    (hstok : StateOK p.st p.est p.encountered_element)
    (henc2 : p.encountered_element = true) :
    DOK p (p.inside_opening_tag t s) := by
  unfold PullParser.inside_opening_tag openNameAction plainAttr
  cases s <;> (try dsimp only)
  case InsideName =>
    refine read_qualified_name_DOK p t _ _ hnep henc hstok ?_
    intro q tok nm h1 h2 h3 h4 h5
    have hq2 : q.next_event = none := h2.trans hnep
    have hq4 : q.encountered_element = true := h4.trans henc2
    (repeat' split) <;>
      first
        | exact DOK_error h1 h2 h3 h4 hnep henc
        | exact DOK_benign h1 h2 h3 h4 hnep henc rfl rfl hq4
        | exact DOK_benign h1 h2 h3 h4 hnep henc rfl rfl (h5 ▸ h1 ▸ h4 ▸ hstok)
        | exact DOK_transfer (emit_start_element_DOK _ _ hq2 hq4) h1 h3
  case InsideTag =>
    cases t <;> (try dsimp only) <;>
      (repeat' split) <;>
      first
        | exact DOK_benign rfl rfl rfl rfl hnep henc rfl rfl henc2
        | exact DOK_benign rfl rfl rfl rfl hnep henc rfl rfl hstok
        | exact DOK_error rfl rfl rfl rfl hnep henc
        | exact emit_start_element_DOK p _ hnep henc2
  case InsideAttributeName =>
    refine read_qualified_name_DOK p t _ _ hnep henc hstok ?_
    intro q tok nm h1 h2 h3 h4 h5
    have hq4 : q.encountered_element = true := h4.trans henc2
    (repeat' split) <;>
      first
        | exact DOK_benign h1 h2 h3 h4 hnep henc rfl rfl hq4
        | exact DOK_benign h1 h2 h3 h4 hnep henc rfl rfl (h5 ▸ h1 ▸ h4 ▸ hstok)
  case AfterAttributeName =>
    cases t <;> (try dsimp only) <;>
      first
        | exact DOK_benign rfl rfl rfl rfl hnep henc rfl rfl henc2
        | exact DOK_benign rfl rfl rfl rfl hnep henc rfl rfl hstok
        | exact DOK_error rfl rfl rfl rfl hnep henc
  case InsideAttributeValue =>
    refine read_attribute_value_DOK p t _ hnep henc hstok ?_
    intro q v h1 h2 h3 h4 h5
    have hq4 : q.encountered_element = true := h4.trans henc2
    (repeat' split) <;>
      first
        | exact DOK_error h1 h2 h3 h4 hnep henc
        | exact DOK_benign h1 h2 h3 h4 hnep henc rfl rfl hq4

/-- `inside_closing_tag_name` satisfies the dispatch-step contract when
the element stack is non-empty and a root element has been encountered
(both hold whenever the parser is in a closing-tag state). -/
theorem inside_closing_tag_name_DOK (p : PullParser) (t : Token)
    (s : ClosingTagSubstate)
    (hnep : p.next_event = none)
    (henc : p.encountered_element = false → p.est = [])
    (hstok : StateOK p.st p.est p.encountered_element)
    (hest : p.est ≠ []) (henc2 : p.encountered_element = true) :
    DOK p (p.inside_closing_tag_name t s) := by
  unfold PullParser.inside_closing_tag_name closingNameAction
  cases s <;> (try dsimp only)
  case CTInsideName =>
    refine read_qualified_name_DOK p t _ _ hnep henc hstok ?_
    intro q tok nm h1 h2 h3 h4 h5
    have hq2 : q.next_event = none := h2.trans hnep
    have hq4 : q.encountered_element = true := h4.trans henc2
    have hq1 : q.est ≠ [] := by rw [h1]; exact hest
    (repeat' split) <;>
      first
        | exact DOK_error h1 h2 h3 h4 hnep henc
        | exact DOK_benign h1 h2 h3 h4 hnep henc rfl rfl ⟨hq1, hq4⟩
        | exact DOK_transfer (emit_end_element_DOK _ hq2 hq1 hq4) h1 h3
  case CTAfterName =>
    cases t <;> (try dsimp only) <;>
      first
        | exact DOK_benign rfl rfl rfl rfl hnep henc rfl rfl hstok
        | exact DOK_error rfl rfl rfl rfl hnep henc
        | exact emit_end_element_DOK p hnep hest henc2

/-- `dispatch_token` satisfies the dispatch-step contract from any parser
satisfying the state condition with an empty lookahead slot. -/
theorem dispatch_token_DOK (p : PullParser) (t : Token)
    (hnep : p.next_event = none)
    (hstok : StateOK p.st p.est p.encountered_element)
    (henc : p.encountered_element = false → p.est = []) :
    DOK p (p.dispatch_token t) := by
  unfold PullParser.dispatch_token
  cases hst : p.st with
  | OutsideTag => exact outside_tag_DOK p t hnep henc hstok
  | InsideProcessingInstruction s =>
      exact inside_processing_instruction_DOK p t s hnep henc hstok
  | InsideDeclaration s => exact inside_declaration_DOK p t s hnep henc hstok
  | InsideDoctype => exact inside_doctype_DOK p t hnep henc hstok
  | InsideOpeningTag s =>
      have henc2 : p.encountered_element = true := by
        rw [hst] at hstok
        exact hstok
      exact inside_opening_tag_DOK p t s hnep henc hstok henc2
  | InsideClosingTag s =>
      have hcl : p.est ≠ [] ∧ p.encountered_element = true := by
        rw [hst] at hstok
        exact hstok
      exact inside_closing_tag_name_DOK p t s hnep henc hstok hcl.1 hcl.2
  | InsideComment => exact inside_comment_DOK p t hnep henc hstok
  | InsideCData => exact inside_cdata_DOK p t hnep henc hstok
  | InsideReference s =>
      have hprev : StateOK s p.est p.encountered_element := by
        rw [hst] at hstok
        exact hstok
      exact inside_reference_DOK p t s hnep henc hstok hprev

/-- The end-of-stream event is always terminal. -/
theorem end_of_stream_terminal (p : PullParser) :
    p.end_of_stream_event = .EndDocument ∨ ∃ m, p.end_of_stream_event = .Error m := by
  unfold PullParser.end_of_stream_event PullParser.selfError
  split_ifs <;> first | exact Or.inl rfl | exact Or.inr ⟨_, rfl⟩

/-- The end-of-stream event is never a Start/EndElement. -/
theorem end_of_stream_counts (p : PullParser) :
    startCt (some p.end_of_stream_event) = 0 ∧
    endCt (some p.end_of_stream_event) = 0 := by
  rcases end_of_stream_terminal p with h | ⟨m, h⟩ <;> rw [h] <;> exact ⟨rfl, rfl⟩

/-- `markFinish` only writes the finish slot. -/
theorem markFinish_fields (p : PullParser) (ev : XmlEvent) :
    (markFinish p ev).est = p.est ∧ (markFinish p ev).next_event = p.next_event ∧
    (markFinish p ev).st = p.st ∧
    (markFinish p ev).encountered_element = p.encountered_element := by
  cases ev <;> exact ⟨rfl, rfl, rfl, rfl⟩

/-- `markFinish` stores exactly the terminal events. -/
theorem markFinish_finish (p : PullParser) (ev : XmlEvent) :
    (isTerminal ev = true ∧ (markFinish p ev).finish_event = some ev) ∨
    (isTerminal ev = false ∧ (markFinish p ev).finish_event = p.finish_event) := by
  cases ev <;> first | exact Or.inl ⟨rfl, rfl⟩ | exact Or.inr ⟨rfl, rfl⟩

/-- A terminal event is EndDocument or an Error. -/
theorem isTerminal_cases {ev : XmlEvent} (h : isTerminal ev = true) :
    ev = .EndDocument ∨ ∃ m, ev = .Error m := by
  cases ev <;>
    first
      | exact Or.inl rfl
      | exact Or.inr ⟨_, rfl⟩
      | (exfalso; simp [isTerminal] at h)

/-- The token loop establishes the parser invariant and (absent an Error)
balances the stack/lookahead accounting with the emitted event. -/
theorem runLoop_inv (ts : List LexRes) : ∀ (p : PullParser),
    p.finish_event = none → p.next_event = none →
    StateOK p.st p.est p.encountered_element →
    (p.encountered_element = false → p.est = []) →
    ParserInv (p.runLoop ts).2.1 ∧
    ((∃ m, (p.runLoop ts).1 = .Error m) ∨
      (p.runLoop ts).2.1.est.length + pendingEnd (p.runLoop ts).2.1 +
        endCt (some (p.runLoop ts).1) =
      p.est.length + startCt (some (p.runLoop ts).1)) := by
  induction ts with
  | nil =>
      intro p hfin hne hstok henc
      constructor
      · refine ⟨Or.inl hne, ?_, ?_, henc⟩
        · rcases end_of_stream_terminal p with h | ⟨m, h⟩
          · exact Or.inr (Or.inl (by simp [PullParser.runLoop, h]))
          · exact Or.inr (Or.inr ⟨m, by simp [PullParser.runLoop, h]⟩)
        · intro h
          simp [PullParser.runLoop] at h
      · rcases end_of_stream_terminal p with h | ⟨m, h⟩
        · refine Or.inr ?_
          simp [PullParser.runLoop, h, pendingEnd, hne, startCt, endCt]
        · exact Or.inl ⟨m, by simp [PullParser.runLoop, h]⟩
  | cons hd rest ih =>
      intro p hfin hne hstok henc
      cases hd with
      | error e =>
          constructor
          · refine ⟨Or.inl hne, Or.inr (Or.inr ⟨e, rfl⟩), ?_, henc⟩
            intro h
            simp [PullParser.runLoop] at h
          · exact Or.inl ⟨e, rfl⟩
      | ok t =>
          obtain ⟨h1, h2, h3, h4, h5, h6⟩ := dispatch_token_DOK p t hne hstok henc
          cases hdt : p.dispatch_token t with
          | mk p' oev =>
            rw [hdt] at h1 h2 h3 h4 h5 h6
            dsimp only at h1 h2 h3 h4 h5 h6
            cases oev with
            | none =>
                have hrl : p.runLoop (Except.ok t :: rest) = p'.runLoop rest := by
                  simp [PullParser.runLoop, hdt]
                rw [hrl]
                have hfin' : p'.finish_event = none := h5.trans hfin
                have hne' : p'.next_event = none := h3 rfl
                have hstok' : StateOK p'.st p'.est p'.encountered_element := by
                  rcases h6 with ⟨e, he, _⟩ | h6
                  · cases he
                  · exact h6
                have hlen : p'.est.length = p.est.length := by
                  rcases h1 with ⟨m, hm⟩ | h1
                  · cases hm
                  · simpa [pendingEnd, hne', endCt, startCt] using h1
                obtain ⟨inv', cnt'⟩ := ih p' hfin' hne' hstok' h4
                refine ⟨inv', ?_⟩
                rcases cnt' with h | h
                · exact Or.inl h
                · exact Or.inr (by rw [h, hlen])
            | some ev =>
                have hrl : p.runLoop (Except.ok t :: rest) = (ev, markFinish p' ev, rest) := by
                  simp [PullParser.runLoop, hdt]
                rw [hrl]
                dsimp only
                obtain ⟨mf1, mf2, mf3, mf4⟩ := markFinish_fields p' ev
                constructor
                · refine ⟨?_, ?_, ?_, ?_⟩
                  · unfold nextEvOK
                    rw [mf2]
                    exact h2
                  · unfold finishOK
                    rcases markFinish_finish p' ev with ⟨ht, heq⟩ | ⟨ht, heq⟩
                    · rcases isTerminal_cases ht with he | ⟨m, he⟩
                      · exact Or.inr (Or.inl (by rw [heq, he]))
                      · exact Or.inr (Or.inr ⟨m, by rw [heq, he]⟩)
                    · exact Or.inl (heq.trans (h5.trans hfin))
                  · intro hf0
                    rw [mf3, mf4]
                    have hnt : isTerminal ev = false := by
                      rcases markFinish_finish p' ev with ⟨ht, heq⟩ | ⟨ht, _⟩
                      · rw [heq] at hf0
                        cases hf0
                      · exact ht
                    rcases h6 with ⟨e, he, hterm⟩ | h6
                    · cases he
                      rw [hnt] at hterm
                      cases hterm
                    · rw [mf1]
                      exact h6
                  · intro h
                    rw [mf1]
                    exact h4 (mf4 ▸ h)
                · rcases h1 with ⟨m, hm⟩ | h1
                  · cases hm
                    exact Or.inl ⟨m, rfl⟩
                  · refine Or.inr ?_
                    show (markFinish p' ev).est.length + pendingEnd (markFinish p' ev) +
                        endCt (some ev) = p.est.length + startCt (some ev)
                    rw [mf1]
                    have hp : pendingEnd (markFinish p' ev) = pendingEnd p' := by
                      unfold pendingEnd
                      rw [mf2]
                    rw [hp]
                    exact h1

/-- One call to `next` preserves the parser invariant and (absent an
Error) balances the stack/lookahead accounting with the returned event. -/
theorem next_inv (p : PullParser) (ts : List LexRes) (hInv : ParserInv p) :
    ParserInv (p.next ts).2.1 ∧
    ((∃ m, (p.next ts).1 = .Error m) ∨
      (p.next ts).2.1.est.length + pendingEnd (p.next ts).2.1 +
        endCt (some (p.next ts).1) =
      p.est.length + pendingEnd p + startCt (some (p.next ts).1)) := by
  obtain ⟨hne, hfin, hst, henc⟩ := hInv
  unfold PullParser.next
  cases hf : p.finish_event with
  | some f =>
      dsimp only
      refine ⟨⟨hne, hfin, hst, henc⟩, ?_⟩
      rcases hfin with h | h | ⟨m, h⟩
      · rw [hf] at h
        cases h
      · rw [hf] at h
        injection h with h
        subst h
        exact Or.inr (by simp [startCt, endCt])
      · rw [hf] at h
        injection h with h
        subst h
        exact Or.inl ⟨m, rfl⟩
  | none =>
      cases hn : p.next_event with
      | some ev =>
          dsimp only
          obtain ⟨n, hen⟩ : ∃ n, ev = XmlEvent.EndElement n := by
            rcases hne with h | ⟨n, h⟩
            · rw [hn] at h
              cases h
            · rw [hn] at h
              injection h with h
              exact ⟨n, h⟩
          constructor
          · exact ⟨Or.inl rfl, Or.inl rfl, fun _ => hst hf, henc⟩
          · subst hen
            refine Or.inr ?_
            simp [pendingEnd, hn, startCt, endCt]
      | none =>
          dsimp only
          by_cases hp : p.pop_namespace
          · rw [if_pos hp]
            obtain ⟨inv1, cnt1⟩ :=
              runLoop_inv ts
                { p with nst := p.nst.pop, finish_event := none, next_event := none,
                         pop_namespace := false }
                rfl rfl (hst hf) henc
            refine ⟨inv1, ?_⟩
            rcases cnt1 with h | h
            · exact Or.inl h
            · refine Or.inr ?_
              rw [h]
              simp [pendingEnd, hn]
          · rw [if_neg hp]
            obtain ⟨inv1, cnt1⟩ := runLoop_inv ts p hf hn (hst hf) henc
            refine ⟨inv1, ?_⟩
            rcases cnt1 with h | h
            · exact Or.inl h
            · refine Or.inr ?_
              rw [h]
              simp [pendingEnd, hn]

/-- The event-count step lemmas for a cons of emitted events. -/
theorem countStart_cons (ev : XmlEvent) (evs : List XmlEvent) :
    countStart (ev :: evs) = startCt (some ev) + countStart evs := by
  unfold countStart startCt
  cases ev <;> simp [List.filter_cons, isStartElement, Nat.add_comm]

theorem countEnd_cons (ev : XmlEvent) (evs : List XmlEvent) :
    countEnd (ev :: evs) = endCt (some ev) + countEnd evs := by
  unfold countEnd endCt
  cases ev <;> simp [List.filter_cons, isEndElement, Nat.add_comm]

theorem noErrors_cons (ev : XmlEvent) (evs : List XmlEvent) :
    noErrors (ev :: evs) = (!isErrorEvent ev && noErrors evs) := by
  simp [noErrors]

/-- A fresh parser satisfies the invariant. -/
theorem ParserInv_new (cfg : ParserConfig) : ParserInv (PullParser.new cfg) :=
  ⟨Or.inl rfl, Or.inl rfl, fun _ => trivial, fun _ => rfl⟩

/-- Any number of calls to `next` preserves the parser invariant and, as
long as no Error event has been returned, keeps the accounting
`stack depth + pending lookahead = StartElements − EndElements`. -/
theorem runNexts_inv (n : Nat) : ∀ (p : PullParser) (ts : List LexRes),
    ParserInv p →
    ParserInv (p.runNexts ts n).2.1 ∧
    (noErrors (p.runNexts ts n).1 = true →
      (p.runNexts ts n).2.1.est.length + pendingEnd (p.runNexts ts n).2.1 +
        countEnd (p.runNexts ts n).1 =
      p.est.length + pendingEnd p + countStart (p.runNexts ts n).1) := by
  induction n with
  | zero =>
      intro p ts hInv
      exact ⟨hInv, fun _ => by simp [PullParser.runNexts, countStart, countEnd]⟩
  | succ n ih =>
      intro p ts hInv
      obtain ⟨inv1, cnt1⟩ := next_inv p ts hInv
      obtain ⟨inv2, cnt2⟩ := ih (p.next ts).2.1 (p.next ts).2.2 inv1
      have he : p.runNexts ts (n + 1) =
          ((p.next ts).1 :: ((p.next ts).2.1.runNexts (p.next ts).2.2 n).1,
           ((p.next ts).2.1.runNexts (p.next ts).2.2 n).2.1,
           ((p.next ts).2.1.runNexts (p.next ts).2.2 n).2.2) := rfl
      rw [he]
      refine ⟨inv2, ?_⟩
      intro hok
      dsimp only at hok ⊢
      rw [noErrors_cons] at hok
      have hok1 : isErrorEvent (p.next ts).1 = false := by
        cases h : isErrorEvent (p.next ts).1
        · rfl
        · rw [h] at hok
          simp at hok
      have hok2 : noErrors ((p.next ts).2.1.runNexts (p.next ts).2.2 n).1 = true := by
        rw [hok1] at hok
        simpa using hok
      have hstep : (p.next ts).2.1.est.length + pendingEnd (p.next ts).2.1 +
          endCt (some (p.next ts).1) =
          p.est.length + pendingEnd p + startCt (some (p.next ts).1) := by
        rcases cnt1 with ⟨m, hm⟩ | h
        · rw [hm] at hok1
          simp [isErrorEvent] at hok1
        · exact h
      have hrec := cnt2 hok2
      rw [countStart_cons, countEnd_cons]
      omega

/-- C4 (amended): at every point after a call to `next` returns on a run
from a fresh parser, as long as no Error event has been returned, the
element stack's length plus the pending lookahead EndElement (if any)
plus the EndElements emitted equals the StartElements emitted — i.e. the
stack length is StartElements − EndElements except right after a
self-closing tag's StartElement, where it is one less while the paired
EndElement waits in the lookahead slot. -/
theorem c4_stack_depth_accounting (cfg : ParserConfig) (ts : List LexRes) (n : Nat)
    (hok : noErrors ((PullParser.new cfg).runNexts ts n).1 = true) :
    ((PullParser.new cfg).runNexts ts n).2.1.est.length +
      pendingEnd ((PullParser.new cfg).runNexts ts n).2.1 +
      countEnd ((PullParser.new cfg).runNexts ts n).1 =
    countStart ((PullParser.new cfg).runNexts ts n).1 := by
  have h := (runNexts_inv n (PullParser.new cfg) ts (ParserInv_new cfg)).2 hok
  simpa [PullParser.new, pendingEnd] using h

/-- Witness for C4 at the run of `<a/>` stopped after two pulls: the stack
is empty, one StartElement was emitted and the paired EndElement is
pending, so 0 + 1 + 0 = 1. -/
theorem c4_stack_depth_accounting_witness :
    ((PullParser.new cfg0).runNexts c4Tokens 2).2.1.est.length +
      pendingEnd ((PullParser.new cfg0).runNexts c4Tokens 2).2.1 +
      countEnd ((PullParser.new cfg0).runNexts c4Tokens 2).1 =
    countStart ((PullParser.new cfg0).runNexts c4Tokens 2).1 :=
  c4_stack_depth_accounting cfg0 c4Tokens 2 (by decide)

/-- If the token loop returns a terminal event, it stores it in the
sticky finish slot. -/
theorem runLoop_terminal_finish (ts : List LexRes) : ∀ (p : PullParser),
    isTerminal (p.runLoop ts).1 = true →
    (p.runLoop ts).2.1.finish_event = some (p.runLoop ts).1 := by
  induction ts with
  | nil =>
      intro p _
      simp [PullParser.runLoop]
  | cons hd rest ih =>
      intro p ht
      cases hd with
      | error e => simp [PullParser.runLoop]
      | ok t =>
          cases hdt : p.dispatch_token t with
          | mk q oev =>
            cases oev with
            | none =>
                have hrl : p.runLoop (Except.ok t :: rest) = q.runLoop rest := by
                  simp [PullParser.runLoop, hdt]
                rw [hrl] at ht ⊢
                exact ih q ht
            | some e =>
                have hrl : p.runLoop (Except.ok t :: rest) =
                    (e, markFinish q e, rest) := by
                  simp [PullParser.runLoop, hdt]
                rw [hrl] at ht ⊢
                dsimp only at ht ⊢
                rcases markFinish_finish q e with ⟨_, heq⟩ | ⟨hnt, _⟩
                · exact heq
                · rw [ht] at hnt
                  cases hnt

/-- If a call to `next` from an invariant-satisfying parser returns a
terminal event, the returned parser has it stored in the sticky finish
slot. -/
theorem next_terminal_finish (p : PullParser) (ts : List LexRes)
    (hInv : ParserInv p)
    (ht : isTerminal (p.next ts).1 = true) :
    (p.next ts).2.1.finish_event = some (p.next ts).1 := by
  obtain ⟨hne, _, hst, _⟩ := hInv
  unfold PullParser.next at ht ⊢
  cases hf : p.finish_event with
  | some f =>
      dsimp only
      exact hf
  | none =>
      rw [hf] at ht
      simp only at ht
      cases hn : p.next_event with
      | some e =>
          rw [hn] at ht
          simp only at ht
          obtain ⟨n1, hen⟩ : ∃ n1, e = XmlEvent.EndElement n1 := by
            rcases hne with h0 | ⟨n1, h0⟩
            · rw [hn] at h0
              cases h0
            · rw [hn] at h0
              injection h0 with h0
              exact ⟨n1, h0⟩
          rw [hen] at ht
          cases ht
      | none =>
          rw [hn] at ht
          simp only at ht
          by_cases hp : p.pop_namespace
          · rw [if_pos hp] at ht ⊢
            exact runLoop_terminal_finish ts _ ht
          · rw [if_neg hp] at ht ⊢
            exact runLoop_terminal_finish ts _ ht

/-- C5: once a call to `next` (at any point of a run from a fresh parser)
returns an Error or EndDocument event, every subsequent call returns the
very same event, consumes no tokens and leaves the parser state
unchanged. -/
theorem c5_terminal_sticky (cfg : ParserConfig) (ts : List LexRes) (n : Nat)
    (ev : XmlEvent) (p' : PullParser) (ts' : List LexRes)
    (h : ((PullParser.new cfg).runNexts ts n).2.1.next
           ((PullParser.new cfg).runNexts ts n).2.2 = (ev, p', ts'))
    (ht : isTerminal ev = true) :
    ∀ ts2, p'.next ts2 = (ev, p', ts2) := by
  have hInv := (runNexts_inv n (PullParser.new cfg) ts (ParserInv_new cfg)).1
  have h1 : (((PullParser.new cfg).runNexts ts n).2.1.next
      ((PullParser.new cfg).runNexts ts n).2.2).1 = ev := by rw [h]
  have h2 : (((PullParser.new cfg).runNexts ts n).2.1.next
      ((PullParser.new cfg).runNexts ts n).2.2).2.1 = p' := by rw [h]
  have hfin : p'.finish_event = some ev := by
    rw [← h1, ← h2]
    exact next_terminal_finish _ _ hInv (by rw [h1]; exact ht)
  intro ts2
  simp only [PullParser.next, hfin]

/-- Witness for C5: the empty stream's no-root error is sticky on a fresh
parser. -/
theorem c5_terminal_sticky_witness :
    noRootParser.next [] = (noRootError, noRootParser, []) :=
  c5_terminal_sticky cfg0 [] 0 noRootError noRootParser [] rfl rfl []

/-- C10: in every state reachable from a fresh parser in which the sticky
finish slot is still empty, being inside a closing-tag substate implies
the element stack is non-empty — the `est.pop().unwrap()` of
`emit_end_element` therefore never runs on an empty stack. -/
theorem c10_closing_stack_nonempty (cfg : ParserConfig) (ts : List LexRes) (n : Nat)
    (hfin : ((PullParser.new cfg).runNexts ts n).2.1.finish_event = none)
    (s : ClosingTagSubstate)
    (hst : ((PullParser.new cfg).runNexts ts n).2.1.st = .InsideClosingTag s) :
    ((PullParser.new cfg).runNexts ts n).2.1.est ≠ [] := by
  have h := ((runNexts_inv n (PullParser.new cfg) ts (ParserInv_new cfg)).1).hst hfin
  rw [hst] at h
  exact h.1

/-- Witness for C10 at the run of `<a>x</` stopped after three pulls: the
parser sits in `CTInsideName` with the root element still on the stack. -/
theorem c10_closing_stack_nonempty_witness :
    ((PullParser.new cfg0).runNexts c10Tokens 3).2.1.est ≠ [] :=
  c10_closing_stack_nonempty cfg0 c10Tokens 3 rfl .CTInsideName rfl
